import Mathlib

/-!
Verification development for the Rhombus-AI data processor.

The embedding models the two core components of the repository:

* the type classifier in
  `backend/data_processor/services/infer_data_types.py`
  (`is_numeric_with_na`, `is_boolean`, `is_categorical`,
  `convert_to_boolean`, `infer_column_type`,
  `infer_and_convert_data_types`), and
* the type coercion engine in `backend/data_processor/api/views.py`
  (`UpdateTypesView.post`).

A pandas `Series` is modelled as a dtype tag together with a list of
cells; the uniform missing value (`None` / `NaN` / `pd.NA` / `NaT`) is a
single `Cell.na` constructor.  Finite Python machine floats are
modelled as exact decimals (the numeric strings occurring in the
repository parse exactly; binary rounding, overflow to infinity on
parse and underflow to zero are not modelled), the infinities are a
dedicated cell, and the external parsers (`pd.to_numeric`, the
`dateutil` parser and `pd.to_datetime`) are modelled by executable Lean
parsers whose per-string coverage is documented at their definitions.
The `Int64` safe cast (`astype('Int64')` and the `Int64` series
construction inside the classifier) accepts exactly the finite integral
values within the signed 64-bit range and raises on everything else,
as pandas' `safe_cast` does.
-/

set_option maxRecDepth 8000

namespace Rhombus

/-- Characters removed by Python `str.strip()` and pandas `.str.strip()`
(ASCII whitespace; exotic unicode whitespace is not modelled). -/
def wsChar (c : Char) : Bool :=
  c == ' ' || c == '\t' || c == '\n' || c == '\r' || c == '\x0b' || c == '\x0c'

/-- Decimal digit test used by the numeric parser. -/
def isDigitC (c : Char) : Bool :=
  c == '0' || c == '1' || c == '2' || c == '3' || c == '4' ||
  c == '5' || c == '6' || c == '7' || c == '8' || c == '9'

/-- Drop trailing characters satisfying `wsChar`. -/
def trimRight : List Char → List Char
  | [] => []
  | c :: cs =>
    match trimRight cs with
    | [] => if wsChar c then [] else [c]
    | r => c :: r

/-- Strip leading and trailing whitespace from a character list. -/
def trimChars (l : List Char) : List Char :=
  trimRight (l.dropWhile wsChar)

/-- Model of Python `str.strip()`. -/
def stripStr (s : String) : String :=
  String.mk (trimChars s.toList)

/-- ASCII lower-casing of one character, as Python `str.lower()` does on
the tokens appearing in this code base. -/
def lowerChar (c : Char) : Char :=
  if c.toNat ≥ 65 ∧ c.toNat ≤ 90 then Char.ofNat (c.toNat + 32) else c

/-- Model of Python `str.lower()`. -/
def lowerStr (s : String) : String :=
  String.mk (s.toList.map lowerChar)

/-- Character for one decimal digit. -/
def digitChar : ℕ → Char
  | 0 => '0' | 1 => '1' | 2 => '2' | 3 => '3' | 4 => '4'
  | 5 => '5' | 6 => '6' | 7 => '7' | 8 => '8' | _ => '9'

/-- Numeric value of a digit character. -/
def digitVal (c : Char) : ℕ := c.toNat - 48

/-- Value of a big-endian digit-character list. -/
def digitsVal (l : List Char) : ℕ :=
  l.foldl (fun a c => a * 10 + digitVal c) 0

/-- Little-endian decimal digits with explicit fuel (the fuel `n`
itself always suffices), written so that every step reduces. -/
def natDigitsRev : ℕ → ℕ → List ℕ
  | 0, _ => []
  | fuel + 1, n => if n = 0 then [] else n % 10 :: natDigitsRev fuel (n / 10)

/-- Big-endian decimal digit characters of a natural number
(empty for zero). -/
def natDigitsBE (n : ℕ) : List Char :=
  ((natDigitsRev n n).reverse).map digitChar

/-- Model of Python `str(n)` for a non-negative integer. -/
def natStr (n : ℕ) : String :=
  if n = 0 then "0" else String.mk (natDigitsBE n)

/-- Model of Python `str(n)` for an integer. -/
def intStr (i : ℤ) : String :=
  if i < 0 then "-" ++ natStr i.natAbs else natStr i.natAbs

/-- Powers of ten over ℤ, written recursively so that every arithmetic
step reduces. -/
def pow10 : ℕ → ℤ
  | 0 => 1
  | e + 1 => 10 * pow10 e

/-- Powers of ten over ℕ. -/
def pow10N : ℕ → ℕ
  | 0 => 1
  | e + 1 => 10 * pow10N e

/-- Strip powers of ten that divide the mantissa: `decReduce m e` is the
canonical decimal representation of the value `m / 10 ^ e`.  Two
canonical decimals denote the same value exactly when they are equal as
pairs, so structural cell equality below is value equality. -/
def decReduce : ℤ → ℕ → ℤ × ℕ
  | m, 0 => (m, 0)
  | m, e + 1 => if m % 10 = 0 then decReduce (m / 10) e else (m, e + 1)

/-- Result of a successful numeric parse: the IEEE `nan` (which pandas
treats as missing), a signed infinity, or a finite value, carried as
the canonical decimal `m / 10 ^ e`.  Finite binary floats are exact
decimals, so this represents every value the repository can produce;
it is exact where a binary float would round, which is irrelevant to
the comparisons the code performs. -/
inductive NumV
  | nan
  | val (m : ℤ) (e : ℕ)
  | inf (neg : Bool)
deriving DecidableEq

/-- Exponent part of a float literal: empty, or `e`/`E` followed by an
optionally signed digit string. -/
def parseExpPart : List Char → Option ℤ
  | [] => some 0
  | c :: r =>
    if c = 'e' ∨ c = 'E' then
      match r with
      | '-' :: r2 =>
        if r2 ≠ [] ∧ r2.all isDigitC then some (-(digitsVal r2 : ℤ)) else none
      | '+' :: r2 =>
        if r2 ≠ [] ∧ r2.all isDigitC then some (digitsVal r2 : ℤ) else none
      | r2 =>
        if r2 ≠ [] ∧ r2.all isDigitC then some (digitsVal r2 : ℤ) else none
    else none

/-- Unsigned decimal mantissa with optional fractional part and
exponent, as accepted by Python `float` / `pd.to_numeric`; the result
is the canonical decimal value. -/
def parseMant (cs : List Char) : Option (ℤ × ℕ) :=
  let ip := cs.takeWhile isDigitC
  let r1 := cs.dropWhile isDigitC
  let fpr : List Char × List Char :=
    match r1 with
    | '.' :: r => (r.takeWhile isDigitC, r.dropWhile isDigitC)
    | _ => ([], r1)
  if ip.isEmpty ∧ fpr.1.isEmpty then none
  else
    match parseExpPart fpr.2 with
    | none => none
    | some ex =>
      let mant : ℤ := (digitsVal ip * pow10N fpr.1.length + digitsVal fpr.1 : ℕ)
      let sc : ℤ := (fpr.1.length : ℤ) - ex
      if sc ≤ 0 then some (mant * pow10 (-sc).toNat, 0)
      else some (decReduce mant sc.toNat)

/-- Model of the numeric string parser behind `pd.to_numeric`: optional
surrounding whitespace, optional sign, decimal mantissa with optional
fraction and exponent, the special `nan` strings and the case-insensitive
`inf` / `infinity` strings.  (Underscore separators are rejected, as the
pandas parser rejects them; a finite decimal so large that a binary
float would overflow to infinity stays the exact finite value.) -/
def parseNumber (s : String) : Option NumV :=
  let t := trimChars s.toList
  if lowerStr (String.mk t) = "nan" ∨ lowerStr (String.mk t) = "+nan" ∨
      lowerStr (String.mk t) = "-nan" then
    some NumV.nan
  else if lowerStr (String.mk t) = "inf" ∨ lowerStr (String.mk t) = "+inf" ∨
      lowerStr (String.mk t) = "infinity" ∨ lowerStr (String.mk t) = "+infinity" then
    some (NumV.inf false)
  else if lowerStr (String.mk t) = "-inf" ∨ lowerStr (String.mk t) = "-infinity" then
    some (NumV.inf true)
  else
    match t with
    | [] => none
    | c :: r =>
      if c = '-' then (parseMant r).map (fun p => NumV.val (-p.1) p.2)
      else if c = '+' then (parseMant r).map (fun p => NumV.val p.1 p.2)
      else (parseMant (c :: r)).map (fun p => NumV.val p.1 p.2)

/-- Pandas dtypes that occur in the repository.  `int64` stands for the
raw numpy integer dtypes (`int64`/`int32`), `int64N` for the nullable
`Int64` extension dtype, `boolRaw` for numpy `bool`, `boolN` for the
nullable `boolean` extension dtype. -/
inductive Dtype
  | object
  | int64
  | int64N
  | float64
  | boolRaw
  | boolN
  | datetime
  | category
deriving DecidableEq

/-- One cell of a column.  `na` is the uniform missing value; `flt m e`
models a finite Python float by the exact decimal value `m / 10 ^ e`
(kept canonical by construction, so structural equality is value
equality); `inf neg` is a signed float infinity; `date` models a
timestamp by an abstract integer code. -/
inductive Cell
  | str (v : String)
  | int (n : ℤ)
  | flt (m : ℤ) (e : ℕ)
  | inf (neg : Bool)
  | bool (b : Bool)
  | date (n : ℤ)
  | na
deriving DecidableEq

/-- Value-level test that the float `m / 10 ^ e` is integral
(the pandas `x % 1 == 0` test). -/
def fltIntegral (m : ℤ) (e : ℕ) : Bool :=
  m % pow10 e == 0

/-- Integer value of an integral float (the `Int64` cast of one
value). -/
def fltToInt (m : ℤ) (e : ℕ) : ℤ :=
  m / pow10 e

/-- Signed 64-bit range test: the values an `int64` can hold. -/
def inI64 (n : ℤ) : Bool :=
  -9223372036854775808 ≤ n && n ≤ 9223372036854775807

/-- Per-value success of the pandas `Int64` safe cast
(`safe_cast` of `astype('Int64')` and of the `Int64` series
construction): finite floats must be integral and fit the signed
64-bit range, integers must fit the range, infinities always raise,
missing becomes `pd.NA` and everything non-numeric is untouched by
the cast itself. -/
def intCastSafe : Cell → Bool
  | Cell.flt m e => fltIntegral m e && inI64 (fltToInt m e)
  | Cell.int n => inI64 n
  | Cell.inf _ => false
  | _ => true

/-- The value map of a successful `Int64` cast: integral floats become
their integer value, everything else is unchanged. -/
def intCastCell : Cell → Cell
  | Cell.flt m e => Cell.int (fltToInt m e)
  | c => c

/-- The `x % 1 == 0` integrality test on one non-missing parsed value
(`inf % 1` is `nan`, which fails the comparison). -/
def numIntegral : Cell → Bool
  | Cell.flt m e => fltIntegral m e
  | _ => false

/-- Integer cells within the signed 64-bit range (anything that is not
an integer cell passes vacuously); the cell-level invariant of a
column produced by a successful `Int64` cast. -/
def cellI64 : Cell → Bool
  | Cell.int n => inI64 n
  | _ => true

/-- A pandas Series: a dtype tag and the list of cells. -/
structure Series where
  dtype : Dtype
  cells : List Cell
deriving DecidableEq

/-- A DataFrame: ordered named columns. -/
abbrev Table := List (String × Series)

/-- Decimal rendering of a non-integral float `m / 10 ^ e` with `e`
fractional digits. -/
def floatFracStr (m : ℤ) (e : ℕ) : String :=
  let sign := if m < 0 then "-" else ""
  let ds0 := natDigitsBE m.natAbs
  let ds := List.replicate (e + 1 - ds0.length) '0' ++ ds0
  sign ++ String.mk (ds.take (ds.length - e)) ++ "." ++ String.mk (ds.drop (ds.length - e))

/-- Model of Python `str(f)` for the float value `m / 10 ^ e`:
integral values render with a trailing `.0`, others as their exact
decimal expansion (which for the canonical parsed decimals of this
model coincides with the shortest-round-trip rendering Python uses). -/
def floatStr (m : ℤ) (e : ℕ) : String :=
  if fltIntegral m e then intStr (fltToInt m e) ++ ".0" else floatFracStr m e

/-- Model of `series.astype(str)` applied to one cell.  The rendering of
the missing value depends on the dtype, exactly as in pandas: `nan` for
float-backed storage (which is also what an object column holds for a
missing value after `.str.strip()` has run), `<NA>` for the nullable
extension dtypes and `NaT` for datetimes.  (A raw Python `None` in an
object column stringifies to `None`; that case cannot reach the numeric
rule, which only sees object columns after `.str.strip()` has replaced
`None` by `NaN`, so it is not modelled separately.) -/
def astypeStrCell (d : Dtype) (c : Cell) : String :=
  match c with
  | Cell.str v => v
  | Cell.int n => intStr n
  | Cell.flt m e => floatStr m e
  | Cell.inf b => if b then "-inf" else "inf"
  | Cell.bool b => if b then "True" else "False"
  | Cell.date n => "Timestamp " ++ intStr n
  | Cell.na =>
    match d with
    | Dtype.int64N => "<NA>"
    | Dtype.boolN => "<NA>"
    | Dtype.datetime => "NaT"
    | _ => "nan"

/-- Python `str(x)` of a cell (object-level rendering). -/
def cellObjStr (c : Cell) : String := astypeStrCell Dtype.object c

/-- Cells surviving `series.dropna()`. -/
def dropnaL (l : List Cell) : List Cell :=
  l.filter (fun c => c ≠ Cell.na)

/-- Cells surviving `series.dropna()` on a Series. -/
def dropna (s : Series) : List Cell := dropnaL s.cells

/-- Option-valued traversal, modelling a whole-column pandas operation
that fails if any element fails. -/
def mapMO (f : α → Option β) : List α → Option (List β)
  | [] => some []
  | a :: l =>
    match f a with
    | none => none
    | some b =>
      match mapMO f l with
      | none => none
      | some bs => some (b :: bs)

/-- Error-propagating traversal, modelling a whole-column pandas
operation that raises at the first failing element. -/
def mapME (f : α → Except String β) : List α → Except String (List β)
  | [] => Except.ok []
  | a :: l =>
    match f a with
    | Except.error e => Except.error e
    | Except.ok b =>
      match mapME f l with
      | Except.error e => Except.error e
      | Except.ok bs => Except.ok (b :: bs)

/-! ### The classifier, from `services/infer_data_types.py` -/

/-- The `na_values` list of `is_numeric_with_na` (source line 16).
Membership is the exact, case-sensitive `isin` test of pandas. -/
def naValues : List String :=
  ["Not Available", "NA", "N/A", "not available", "n/a", "", " ", "-"]

/-- The textual boolean tokens of `is_boolean` (source line 43). -/
def boolTokens : List String :=
  ["true", "false", "t", "f", "yes", "no", "y", "n", "1", "0"]

/-- The `bool_map` lookup of `convert_to_boolean` restricted to its
string keys, which are the only ones reachable through
`str(x).lower()` (source lines 63-71). -/
def boolMapLookup (t : String) : Option Bool :=
  if t = "true" ∨ t = "t" ∨ t = "yes" ∨ t = "y" ∨ t = "1" then some true
  else if t = "false" ∨ t = "f" ∨ t = "no" ∨ t = "n" ∨ t = "0" then some false
  else none

/-- `series.str.strip()` on one cell: strings are stripped, anything
that is not a string becomes missing (the pandas `.str` accessor turns
non-string elements into `NaN`). -/
def stripCell : Cell → Cell
  | Cell.str v => Cell.str (stripStr v)
  | Cell.na => Cell.na
  | _ => Cell.na

/-- `series.str.strip()` on a Series. -/
def stripSeries (s : Series) : Series :=
  ⟨s.dtype, s.cells.map stripCell⟩

/-- One cell of the numeric pass of `is_numeric_with_na` (source lines
21-28): the stringified cell is mapped to the sentinel when its stripped
form is a recognized token, otherwise it must parse numerically
(`errors='raise'`); a parsed `NaN` is the sentinel. -/
def numCell (t : String) : Option Cell :=
  if stripStr t ∈ naValues then some Cell.na
  else
    match parseNumber t with
    | some NumV.nan => some Cell.na
    | some (NumV.val m e) => some (Cell.flt m e)
    | some (NumV.inf b) => some (Cell.inf b)
    | none => none

/-- `is_numeric_with_na` (source lines 15-35): stringify the column,
send token cells to the sentinel, parse the rest; any parse failure
rejects the whole column.  On success the column becomes nullable
`Int64` when there is at least one non-missing value and every
non-missing value is integral (`x % 1 == 0`, which an infinity fails),
else `float64`; the `Int64` series construction itself raises inside
the enclosing `try` when a value does not fit the signed 64-bit range
(`safe_cast`), in which case the `except` arm reports the column as
not numeric (source lines 26-35). -/
def is_numeric_with_na (s : Series) : Bool × Series :=
  match mapMO (fun c => numCell (astypeStrCell s.dtype c)) s.cells with
  | none => (false, s)
  | some cs =>
    if !(dropnaL cs).isEmpty && (dropnaL cs).all numIntegral then
      if cs.all intCastSafe then (true, ⟨Dtype.int64N, cs.map intCastCell⟩)
      else (false, s)
    else (true, ⟨Dtype.float64, cs⟩)

/-- `is_boolean` (source lines 37-47): integer-typed columns qualify
when every non-missing value is 0 or 1; object columns when every
non-missing value, stringified and lower-cased, is a boolean token;
every other dtype (notably `float64`) never qualifies. -/
def is_boolean (s : Series) : Bool :=
  if s.dtype = Dtype.int64 ∨ s.dtype = Dtype.int64N then
    (dropna s).all (fun c => c == Cell.int 0 || c == Cell.int 1)
  else if s.dtype = Dtype.object then
    (dropna s).all (fun c => decide (lowerStr (cellObjStr c) ∈ boolTokens))
  else false

/-- `convert_to_boolean` (source lines 62-76): numeric dtypes map 1 to
true and 0 to false with everything else (including missing) becoming
the sentinel; other dtypes go through `bool_map` on the lower-cased
string rendering.  The result dtype is nullable `boolean`. -/
def convert_to_boolean (s : Series) : Series :=
  if s.dtype = Dtype.int64 ∨ s.dtype = Dtype.int64N ∨ s.dtype = Dtype.float64 then
    ⟨Dtype.boolN, s.cells.map (fun c =>
      match c with
      | Cell.int 1 => Cell.bool true
      | Cell.int 0 => Cell.bool false
      | Cell.flt m e =>
        if m = pow10 e then Cell.bool true
        else if m = 0 then Cell.bool false
        else Cell.na
      | _ => Cell.na)⟩
  else
    ⟨Dtype.boolN, s.cells.map (fun c =>
      if c = Cell.na then Cell.na
      else
        match boolMapLookup (lowerStr (astypeStrCell s.dtype c)) with
        | some b => Cell.bool b
        | none => Cell.na)⟩

/-- Distinct cells of a list, modelling the count behind
`series.dropna().unique()` (first occurrences are kept; only the
count and the member set are ever used). -/
def uniqueCells : List Cell → List Cell
  | [] => []
  | c :: l =>
    let r := uniqueCells l
    if c ∈ r then r else c :: r

/-- `is_categorical` (source lines 49-60) with the default threshold
0.5: categorical dtype always qualifies; an object column with at most
10 distinct non-missing values, all rendering to one character,
qualifies; otherwise the column qualifies when it has at least one
non-missing value, the distinct/total ratio is strictly below the
threshold and the non-missing count is at least 10.  The exact-division
test `n_unique / n_total < 0.5` is written cross-multiplied
(`2 * n_unique < n_total`), which agrees with the Python float division
for every table size a float can count. -/
def is_categorical (s : Series) : Bool :=
  if s.dtype = Dtype.category then true
  else if s.dtype = Dtype.object ∧ (uniqueCells (dropna s)).length ≤ 10 ∧
      (uniqueCells (dropna s)).all (fun c => (cellObjStr c).length == 1) then true
  else
    decide (0 < (dropna s).length ∧
      2 * (uniqueCells (dropna s)).length < (dropna s).length ∧
      10 ≤ (dropna s).length)

/-- Model of the permissive external date parser (`dateutil.parser.parse`
and the `pd.to_datetime` string parser), restricted to ISO
`YYYY-MM-DD` dates.  The theorems below depend only on some strings
parsing and others failing, never on the parser accepting every format
`dateutil` accepts. -/
def parseDateISO (s : String) : Option ℤ :=
  match trimChars s.toList with
  | [y1, y2, y3, y4, '-', m1, m2, '-', d1, d2] =>
    if [y1, y2, y3, y4, m1, m2, d1, d2].all isDigitC then
      let y := digitsVal [y1, y2, y3, y4]
      let m := digitsVal [m1, m2]
      let d := digitsVal [d1, d2]
      if 1 ≤ m ∧ m ≤ 12 ∧ 1 ≤ d ∧ d ≤ 31 then
        some ((y * 10000 + m * 100 + d : ℕ) : ℤ)
      else none
    else none
  | _ => none

/-- `is_date` (source lines 8-13): `parse(str(x))` succeeds. -/
def is_date (c : Cell) : Bool :=
  (parseDateISO (cellObjStr c)).isSome

/-- One cell of `pd.to_datetime(series, format='mixed', dayfirst=False)`
as used in `infer_column_type`; missing stays `NaT`.  (Since `is_date`
and this conversion are modelled by the same parser, the guarded call
never fails, matching the guard in the source.) -/
def toDatetimeCellI (c : Cell) : Cell :=
  if c = Cell.na then Cell.na
  else
    match parseDateISO (cellObjStr c) with
    | some d => Cell.date d
    | none => Cell.na

/-- The rule cascade of `infer_column_type` after the initial
`series.str.strip()` rebinding (source lines 82-104): pass through
datetime and raw-bool dtypes, then try the boolean, numeric, date and
categorical rules in order, defaulting to the column itself. -/
def infer_column_core (s : Series) : Series :=
  if s.dtype = Dtype.datetime then s
  else if s.dtype = Dtype.boolRaw then s
  else if is_boolean s then convert_to_boolean s
  else
    match is_numeric_with_na s with
    | (true, ns) => ns
    | (false, _) =>
      if s.dtype = Dtype.object ∧ (dropna s).all is_date then
        ⟨Dtype.datetime, s.cells.map toDatetimeCellI⟩
      else if is_categorical s then ⟨Dtype.category, s.cells⟩
      else s

/-- `infer_column_type` (source lines 78-104): strip object columns
(rebinding `series`, source lines 79-80), then run the rule cascade. -/
def infer_column_type (s0 : Series) : Series :=
  infer_column_core (if s0.dtype = Dtype.object then stripSeries s0 else s0)

/-- The per-column `astype(str)` applied by
`infer_and_convert_data_types` to object columns before inference
(source lines 111-112). -/
def astypeStrSeries (s : Series) : Series :=
  ⟨Dtype.object, s.cells.map (fun c => Cell.str (astypeStrCell s.dtype c))⟩

/-- One column of `infer_and_convert_data_types` (source lines 107-116). -/
def inferConvertColumn (s : Series) : Series :=
  infer_column_type (if s.dtype = Dtype.object then astypeStrSeries s else s)

/-- `infer_and_convert_data_types` over a whole table. -/
def infer_and_convert_data_types (df : Table) : Table :=
  df.map (fun p => (p.1, inferConvertColumn p.2))

/-! ### The coercion engine, from `api/views.py` (`UpdateTypesView.post`) -/

/-- One cell of `pd.to_datetime(df[column])` (source line 157,
`errors='raise'`): missing becomes `NaT`, strings must parse, integers
and floats are read as epoch values, booleans raise. -/
def to_datetime_cell (c : Cell) : Except String Cell :=
  match c with
  | Cell.na => Except.ok Cell.na
  | Cell.str v =>
    match parseDateISO v with
    | some d => Except.ok (Cell.date d)
    | none => Except.error ("Unknown datetime string format, unable to parse: " ++ v)
  | Cell.int n => Except.ok (Cell.date n)
  | Cell.flt m _ => Except.ok (Cell.date m)
  | Cell.inf _ => Except.error "Out of bounds nanosecond timestamp"
  | Cell.bool _ => Except.error "bool is not convertible to datetime"
  | Cell.date n => Except.ok (Cell.date n)

/-- One cell of `pd.to_numeric(df[column], errors='coerce')` (source
lines 162 and 164): strings parse (a parsed `nan` and every parse
failure becomes the sentinel, a parsed infinity stays an infinity),
numbers pass through, booleans read as 1/0, anything else becomes the
sentinel. -/
def toNumericCoerce (c : Cell) : Cell :=
  match c with
  | Cell.str v =>
    match parseNumber v with
    | some (NumV.val m e) => Cell.flt m e
    | some (NumV.inf b) => Cell.inf b
    | _ => Cell.na
  | Cell.int n => Cell.int n
  | Cell.flt m e => Cell.flt m e
  | Cell.inf b => Cell.inf b
  | Cell.bool b => Cell.int (if b then 1 else 0)
  | Cell.date _ => Cell.na
  | Cell.na => Cell.na

/-- The composite integer coercion of one cell: `pd.to_numeric(...,
errors='coerce')` followed by the value map of the `Int64` cast. -/
def intCoerceCell (c : Cell) : Cell :=
  intCastCell (toNumericCoerce c)

/-- Non-missing boolean cell test, used by the `astype('boolean')`
model. -/
def isBoolCell : Cell → Bool
  | Cell.bool _ => true
  | _ => false

/-- Non-missing numeric cell test (integers, finite floats and
infinities). -/
def isNumCell : Cell → Bool
  | Cell.int _ => true
  | Cell.flt _ _ => true
  | Cell.inf _ => true
  | _ => false

/-- Numeric cell equal to 0 or 1, used by the `astype('boolean')`
model. -/
def isNum01 : Cell → Bool
  | Cell.int n => n == 0 || n == 1
  | Cell.flt m e => m == 0 || m == pow10 e
  | _ => false

/-- Map a 0/1 numeric cell to its boolean; missing stays missing. -/
def num01ToBool : Cell → Cell
  | Cell.int n => Cell.bool (n == 1)
  | Cell.flt m e => Cell.bool (m == pow10 e)
  | c => c

/-- Error message of the pandas nullable-boolean coercion. -/
def boolCastErr : String := "Need to pass bool-like values"

/-- Error message of the pandas `Int64` safe cast. -/
def intCastErr : String := "cannot safely cast non-equivalent float64 to int64"

/-- Model of `df[column].astype('boolean')` (source line 166), following
`pandas.core.arrays.boolean.coerce_to_array`: a column whose non-missing
values are all booleans passes through; one whose non-missing values are
all numerics succeeds only when each is exactly 0 or 1; any other
content (in particular any string) raises `TypeError: Need to pass
bool-like values`. -/
def astypeBoolean (s : Series) : Except String Series :=
  let nonNa := dropnaL s.cells
  if nonNa.all isBoolCell then Except.ok ⟨Dtype.boolN, s.cells⟩
  else if nonNa.all isNum01 then Except.ok ⟨Dtype.boolN, s.cells.map num01ToBool⟩
  else Except.error boolCastErr

/-- The per-column conversion dispatch of `UpdateTypesView.post`
(source lines 156-168).  A returned error is the `str(e)` detail of the
exception the pandas call raises. -/
def convertColumn (target : String) (s : Series) : Except String Series :=
  if target = "datetime64[ns]" then
    match mapME to_datetime_cell s.cells with
    | Except.error m => Except.error m
    | Except.ok cs => Except.ok ⟨Dtype.datetime, cs⟩
  else if target = "category" then Except.ok ⟨Dtype.category, s.cells⟩
  else if target = "int64" then
    let nums := s.cells.map toNumericCoerce
    if nums.all intCastSafe then
      Except.ok ⟨Dtype.int64N, nums.map intCastCell⟩
    else Except.error intCastErr
  else if target = "float64" then
    Except.ok ⟨Dtype.float64, s.cells.map (fun c =>
      match toNumericCoerce c with
      | Cell.int n => Cell.flt n 0
      | c2 => c2)⟩
  else if target = "bool" then astypeBoolean s
  else Except.ok ⟨Dtype.object, s.cells⟩

/-- The error payload returned by `UpdateTypesView.post` on a failed
conversion: the response names the offending column and target type in
its `error` field and carries `str(e)` in `details` (source lines
169-176).  A missing column raises `KeyError(column)`; its detail is
modelled as the column name. -/
structure ConvError where
  column : String
  target : String
  details : String
deriving DecidableEq

/-- First column of a table with the given name. -/
def lookupCol (df : Table) (c : String) : Option Series :=
  (df.find? (fun p => p.1 == c)).map Prod.snd

/-- Replace every column named `c` by `s`. -/
def setCol (df : Table) (c : String) (s : Series) : Table :=
  df.map (fun p => if p.1 = c then (p.1, s) else p)

/-- The conversion loop of `UpdateTypesView.post` (source lines
154-176): each requested column is converted in order; the first
failure aborts the whole request with a `ConvError`, otherwise the
rebuilt table is returned.  (The surrounding HTTP glue - request
parsing, the missing-data guard and JSON re-serialization - is outside
the specified core.) -/
def updateTypes : List (String × String) → Table → Except ConvError Table
  | [], df => Except.ok df
  | (c, ty) :: rest, df =>
    match lookupCol df c with
    | none => Except.error ⟨c, ty, c⟩
    | some s =>
      match convertColumn ty s with
      | Except.error m => Except.error ⟨c, ty, m⟩
      | Except.ok s2 => updateTypes rest (setCol df c s2)

/-- The boolean image of a 0/1 cell under the classifier: a stripped
`"1"`/`"0"` string or an integer 1/0 maps to its boolean, missing and
anything else to the sentinel. -/
def bool01Cell : Cell → Cell
  | Cell.str v =>
    if stripStr v = "1" then Cell.bool true
    else if stripStr v = "0" then Cell.bool false
    else Cell.na
  | Cell.int n =>
    if n = 1 then Cell.bool true
    else if n = 0 then Cell.bool false
    else Cell.na
  | _ => Cell.na

instance instDecEqExcept {ε α : Type} [DecidableEq ε] [DecidableEq α] :
    DecidableEq (Except ε α) := fun a b =>
  match a, b with
  | Except.error e, Except.error f => decidable_of_iff (e = f) (by simp)
  | Except.ok x, Except.ok y => decidable_of_iff (x = y) (by simp)
  | Except.error _, Except.ok _ => isFalse (by simp)
  | Except.ok _, Except.error _ => isFalse (by simp)


/-! ### Generic lemmas about the traversals and string helpers -/

theorem mapMO_congr {α β : Type} {f g : α → Option β} {l : List α}
    (h : ∀ a ∈ l, f a = g a) : mapMO f l = mapMO g l := by
  induction l with
  | nil => rfl
  | cons a t ih =>
    simp only [mapMO]
    rw [h a (List.mem_cons_self a t), ih (fun b hb => h b (List.mem_cons_of_mem a hb))]

theorem mapMO_eq_none {α β : Type} {f : α → Option β} {l : List α} {a : α}
    (ha : a ∈ l) (hf : f a = none) : mapMO f l = none := by
  induction l with
  | nil => cases ha
  | cons b t ih =>
    rcases List.mem_cons.mp ha with h | h
    · subst h; simp [mapMO, hf]
    · simp only [mapMO]
      cases hfb : f b
      · rfl
      · rw [ih h]

theorem mapMO_eq_some_map {α β : Type} {f : α → Option β} {g : α → β} {l : List α}
    (h : ∀ a ∈ l, f a = some (g a)) : mapMO f l = some (l.map g) := by
  induction l with
  | nil => rfl
  | cons a t ih =>
    simp only [mapMO, List.map_cons]
    rw [h a (List.mem_cons_self a t), ih (fun b hb => h b (List.mem_cons_of_mem a hb))]

theorem mapMO_get? {α β : Type} {f : α → Option β} {l : List α} {ys : List β}
    (h : mapMO f l = some ys) :
    ∀ {i : ℕ} {a : α}, l.get? i = some a → ∃ b, f a = some b ∧ ys.get? i = some b := by
  induction l generalizing ys with
  | nil => intro i a ha; simp at ha
  | cons c t ih =>
    intro i a ha
    simp only [mapMO] at h
    cases hfc : f c with
    | none => rw [hfc] at h; cases h
    | some b0 =>
      rw [hfc] at h
      cases hmt : mapMO f t with
      | none => rw [hmt] at h; cases h
      | some bs =>
        rw [hmt] at h
        cases h
        cases i with
        | zero =>
          simp only [List.get?] at ha ⊢
          cases ha
          exact ⟨b0, hfc, rfl⟩
        | succ j =>
          simp only [List.get?] at ha ⊢
          exact ih hmt ha

theorem mapME_error_of_mem {α β : Type} {f : α → Except String β} {l : List α}
    (h : ∃ a ∈ l, ∃ m, f a = Except.error m) :
    ∃ m, mapME f l = Except.error m ∧ ∃ a ∈ l, f a = Except.error m := by
  induction l with
  | nil => rcases h with ⟨a, ha, _⟩; cases ha
  | cons c t ih =>
    rcases h with ⟨a, ha, m0, hm0⟩
    cases hfc : f c with
    | error e =>
      refine ⟨e, ?_, c, List.mem_cons_self c t, hfc⟩
      simp [mapME, hfc]
    | ok b =>
      rcases List.mem_cons.mp ha with h1 | h1
      · subst h1; rw [hfc] at hm0; cases hm0
      · rcases ih ⟨a, h1, m0, hm0⟩ with ⟨m, hm, a2, ha2, hfa2⟩
        refine ⟨m, ?_, a2, List.mem_cons_of_mem c ha2, hfa2⟩
        simp [mapME, hfc, hm]

/-! ### Whitespace-trimming lemmas -/

theorem trimRight_eq_self {l : List Char} (h : ∀ c ∈ l, wsChar c = false) :
    trimRight l = l := by
  induction l with
  | nil => rfl
  | cons a t ih =>
    simp only [trimRight]
    rw [ih (fun c hc => h c (List.mem_cons_of_mem a hc))]
    cases t with
    | nil => simp [h a (List.mem_cons_self a [])]
    | cons c r => rfl

theorem trimRight_shape (a : Char) (l : List Char) :
    trimRight (a :: l) = [] ∨ ∃ r, trimRight (a :: l) = a :: r := by
  simp only [trimRight]
  cases trimRight l with
  | nil =>
    by_cases hw : wsChar a
    · left; simp [hw]
    · right; exact ⟨[], by simp [hw]⟩
  | cons c r => right; exact ⟨c :: r, rfl⟩

theorem trimRight_idem (l : List Char) : trimRight (trimRight l) = trimRight l := by
  induction l with
  | nil => rfl
  | cons a t ih =>
    cases h : trimRight t with
    | nil =>
      by_cases hw : wsChar a
      · simp [hw, trimRight, h]
      · simp [hw, trimRight, h]
    | cons c r =>
      rw [h] at ih
      have e1 : trimRight (a :: t) = a :: c :: r := by rw [trimRight, h]
      rw [e1, trimRight, ih]

theorem dropWhile_eq_self_of_head {p : Char → Bool} {a : Char} {l : List Char}
    (h : p a = false) : (a :: l).dropWhile p = a :: l := by
  simp [List.dropWhile_cons, h]

theorem dropWhile_head_not (p : Char → Bool) (l : List Char) :
    l.dropWhile p = [] ∨ ∃ a t, l.dropWhile p = a :: t ∧ p a = false := by
  induction l with
  | nil => left; rfl
  | cons a t ih =>
    by_cases hp : p a
    · simpa [List.dropWhile_cons, hp] using ih
    · right
      refine ⟨a, t, ?_, by simp [hp]⟩
      simp [List.dropWhile_cons, hp]

theorem trimChars_of_no_ws {l : List Char} (h : ∀ c ∈ l, wsChar c = false) :
    trimChars l = l := by
  unfold trimChars
  have hd : l.dropWhile wsChar = l := by
    cases l with
    | nil => rfl
    | cons a t => exact dropWhile_eq_self_of_head (h a (List.mem_cons_self a t))
  rw [hd, trimRight_eq_self h]

theorem trimChars_idem (l : List Char) : trimChars (trimChars l) = trimChars l := by
  unfold trimChars
  rcases dropWhile_head_not wsChar l with h | ⟨a, t, h, ha⟩
  · rw [h]; rfl
  · rw [h]
    rcases trimRight_shape a t with h2 | ⟨r, h2⟩
    · rw [h2]; rfl
    · rw [h2, dropWhile_eq_self_of_head ha, ← h2, trimRight_idem]

theorem stripStr_mk (l : List Char) : stripStr (String.mk l) = String.mk (trimChars l) := rfl

theorem stripStr_idem (v : String) : stripStr (stripStr v) = stripStr v := by
  cases v with
  | mk l => rw [stripStr_mk, stripStr_mk, trimChars_idem]

theorem stripStr_of_no_ws {v : String} (h : ∀ c ∈ v.toList, wsChar c = false) :
    stripStr v = v := by
  cases v with
  | mk l =>
    have h2 : ∀ c ∈ l, wsChar c = false := h
    rw [stripStr_mk, trimChars_of_no_ws h2]

theorem stripCell_idem (c : Cell) : stripCell (stripCell c) = stripCell c := by
  cases c <;> simp [stripCell, stripStr_idem]

theorem stripSeries_idem (s : Series) : stripSeries (stripSeries s) = stripSeries s := by
  unfold stripSeries
  simp [List.map_map, Function.comp, stripCell_idem]

theorem stripSeries_cell_shape {s : Series} {c : Cell} (h : c ∈ (stripSeries s).cells) :
    (∃ v, c = Cell.str v ∧ stripStr v = v) ∨ c = Cell.na := by
  rcases List.mem_map.mp h with ⟨c0, _, rfl⟩
  cases c0 with
  | str v => exact Or.inl ⟨stripStr v, rfl, stripStr_idem v⟩
  | na => exact Or.inr rfl
  | int n => exact Or.inr rfl
  | flt m e => exact Or.inr rfl
  | inf b => exact Or.inr rfl
  | bool b => exact Or.inr rfl
  | date n => exact Or.inr rfl



/-! ### Digit-string lemmas and the integer parse round trip -/

theorem isDigitC_elim {c : Char} (h : isDigitC c = true) :
    c = '0' ∨ c = '1' ∨ c = '2' ∨ c = '3' ∨ c = '4' ∨
    c = '5' ∨ c = '6' ∨ c = '7' ∨ c = '8' ∨ c = '9' := by
  simp [isDigitC] at h
  tauto

theorem wsChar_of_digit {c : Char} (h : isDigitC c = true) : wsChar c = false := by
  rcases isDigitC_elim h with h | h | h | h | h | h | h | h | h | h <;> subst h <;> decide

theorem lowerChar_digit {c : Char} (h : isDigitC c = true) : lowerChar c = c := by
  rcases isDigitC_elim h with h | h | h | h | h | h | h | h | h | h <;> subst h <;> decide

theorem digit_ne_sign {c : Char} (h : isDigitC c = true) :
    c ≠ '-' ∧ c ≠ '+' := by
  rcases isDigitC_elim h with h | h | h | h | h | h | h | h | h | h <;> subst h <;> decide

theorem digitChar_facts {d : ℕ} (h : d < 10) :
    isDigitC (digitChar d) = true ∧ digitVal (digitChar d) = d := by
  interval_cases d <;> exact ⟨by decide, by decide⟩

theorem foldl_digitsVal (l : List ℕ) (a : ℕ) (h : ∀ d ∈ l, d < 10) :
    List.foldl (fun x c => x * 10 + digitVal c) a ((l.reverse).map digitChar) =
      a * 10 ^ l.length + Nat.ofDigits 10 l := by
  induction l generalizing a with
  | nil => simp
  | cons d t ih =>
    have hd : d < 10 := h d (List.mem_cons_self d t)
    have ht : ∀ x ∈ t, x < 10 := fun x hx => h x (List.mem_cons_of_mem d hx)
    simp only [List.reverse_cons, List.map_append, List.foldl_append, ih a ht,
      List.map_cons, List.map_nil, List.foldl_cons, List.foldl_nil,
      (digitChar_facts hd).2, Nat.ofDigits_cons, List.length_cons]
    ring

theorem natDigitsRev_eq (fuel : ℕ) :
    ∀ n : ℕ, n ≤ fuel → natDigitsRev fuel n = Nat.digits 10 n := by
  induction fuel with
  | zero =>
    intro n hn
    interval_cases n
    simp [natDigitsRev]
  | succ f ih =>
    intro n hn
    by_cases h0 : n = 0
    · subst h0; simp [natDigitsRev]
    · have hdiv : n / 10 ≤ f := by
        have := Nat.div_lt_self (Nat.pos_of_ne_zero h0) (by norm_num : 1 < 10)
        omega
      rw [natDigitsRev, if_neg h0, ih (n / 10) hdiv,
        Nat.digits_def' (by norm_num : 1 < 10) (Nat.pos_of_ne_zero h0)]

theorem digitsVal_natDigitsBE (n : ℕ) : digitsVal (natDigitsBE n) = n := by
  unfold natDigitsBE digitsVal
  rw [natDigitsRev_eq n n le_rfl,
    foldl_digitsVal _ 0 (fun d hd => Nat.digits_lt_base (by norm_num) hd)]
  simp [Nat.ofDigits_digits]

theorem natDigitsBE_digits (n : ℕ) : ∀ c ∈ natDigitsBE n, isDigitC c = true := by
  intro c hc
  unfold natDigitsBE at hc
  rw [natDigitsRev_eq n n le_rfl] at hc
  rcases List.mem_map.mp hc with ⟨d, hd, rfl⟩
  exact (digitChar_facts (Nat.digits_lt_base (by norm_num) (List.mem_reverse.mp hd))).1

theorem natStr_toList_digits (n : ℕ) : ∀ c ∈ (natStr n).toList, isDigitC c = true := by
  intro c hc
  unfold natStr at hc
  by_cases h0 : n = 0
  · rw [if_pos h0] at hc
    have h2 : c ∈ ['0'] := hc
    rw [List.mem_singleton] at h2
    subst h2
    decide
  · rw [if_neg h0] at hc
    exact natDigitsBE_digits n c hc

theorem natStr_toList_ne_nil (n : ℕ) : (natStr n).toList ≠ [] := by
  unfold natStr
  by_cases h0 : n = 0
  · rw [if_pos h0]; intro h; cases h
  · rw [if_neg h0]
    show natDigitsBE n ≠ []
    unfold natDigitsBE
    rw [natDigitsRev_eq n n le_rfl]
    simp [Nat.digits_ne_nil_iff_ne_zero, h0]

theorem digitsVal_natStr (n : ℕ) : digitsVal (natStr n).toList = n := by
  unfold natStr
  by_cases h0 : n = 0
  · rw [if_pos h0]; subst h0; decide
  · rw [if_neg h0]
    exact digitsVal_natDigitsBE n

theorem takeWhile_all {p : Char → Bool} {l : List Char} (h : ∀ c ∈ l, p c = true) :
    l.takeWhile p = l := by
  induction l with
  | nil => rfl
  | cons a t ih =>
    rw [List.takeWhile_cons, if_pos (h a (List.mem_cons_self a t)),
      ih (fun c hc => h c (List.mem_cons_of_mem a hc))]

theorem dropWhile_all {p : Char → Bool} {l : List Char} (h : ∀ c ∈ l, p c = true) :
    l.dropWhile p = [] := by
  induction l with
  | nil => rfl
  | cons a t ih =>
    rw [List.dropWhile_cons, if_pos (h a (List.mem_cons_self a t)),
      ih (fun c hc => h c (List.mem_cons_of_mem a hc))]

theorem parseMant_digits {l : List Char} (hne : l ≠ []) (hd : ∀ c ∈ l, isDigitC c = true) :
    parseMant l = some ((digitsVal l : ℤ), 0) := by
  unfold parseMant
  rw [takeWhile_all hd, dropWhile_all hd]
  have hie : l.isEmpty = false := by
    cases l with
    | nil => exact absurd rfl hne
    | cons a t => rfl
  simp only [hie]
  rw [if_neg (by simp)]
  have hnil : digitsVal [] = 0 := rfl
  simp only [parseExpPart, List.length_nil, hnil, pow10N, pow10]
  norm_num

theorem digits_not_nan {l : List Char} (hd : ∀ c ∈ l, isDigitC c = true) :
    ¬(lowerStr (String.mk l) = "nan" ∨ lowerStr (String.mk l) = "+nan" ∨
      lowerStr (String.mk l) = "-nan") := by
  have hmap : lowerStr (String.mk l) = String.mk l := by
    unfold lowerStr
    have h2 : l.map lowerChar = l :=
      (List.map_congr_left (fun c hc => lowerChar_digit (hd c hc))).trans (List.map_id l)
    show String.mk (l.map lowerChar) = String.mk l
    rw [h2]
  rw [hmap]
  intro h
  rcases h with h | h | h
  · have h2 : l = "nan".toList := congrArg String.toList h
    exact absurd (hd 'n' (by rw [h2]; decide)) (by decide)
  · have h2 : l = "+nan".toList := congrArg String.toList h
    exact absurd (hd '+' (by rw [h2]; decide)) (by decide)
  · have h2 : l = "-nan".toList := congrArg String.toList h
    exact absurd (hd '-' (by rw [h2]; decide)) (by decide)

theorem digits_lower_self {l : List Char} (hd : ∀ c ∈ l, isDigitC c = true) :
    lowerStr (String.mk l) = String.mk l := by
  unfold lowerStr
  have h2 : l.map lowerChar = l :=
    (List.map_congr_left (fun c hc => lowerChar_digit (hd c hc))).trans (List.map_id l)
  show String.mk (l.map lowerChar) = String.mk l
  rw [h2]

theorem digits_not_inf {l : List Char} (hd : ∀ c ∈ l, isDigitC c = true) :
    ¬(lowerStr (String.mk l) = "inf" ∨ lowerStr (String.mk l) = "+inf" ∨
      lowerStr (String.mk l) = "infinity" ∨ lowerStr (String.mk l) = "+infinity") := by
  rw [digits_lower_self hd]
  intro h
  rcases h with h | h | h | h
  · have h2 : l = "inf".toList := congrArg String.toList h
    exact absurd (hd 'i' (by rw [h2]; decide)) (by decide)
  · have h2 : l = "+inf".toList := congrArg String.toList h
    exact absurd (hd '+' (by rw [h2]; decide)) (by decide)
  · have h2 : l = "infinity".toList := congrArg String.toList h
    exact absurd (hd 'i' (by rw [h2]; decide)) (by decide)
  · have h2 : l = "+infinity".toList := congrArg String.toList h
    exact absurd (hd '+' (by rw [h2]; decide)) (by decide)

theorem digits_not_neg_inf {l : List Char} (hd : ∀ c ∈ l, isDigitC c = true) :
    ¬(lowerStr (String.mk l) = "-inf" ∨ lowerStr (String.mk l) = "-infinity") := by
  rw [digits_lower_self hd]
  intro h
  rcases h with h | h
  · have h2 : l = "-inf".toList := congrArg String.toList h
    exact absurd (hd '-' (by rw [h2]; decide)) (by decide)
  · have h2 : l = "-infinity".toList := congrArg String.toList h
    exact absurd (hd '-' (by rw [h2]; decide)) (by decide)

theorem neg_digits_lower_self {L : List Char} (hd : ∀ c ∈ L, isDigitC c = true) :
    lowerStr (String.mk ('-' :: L)) = String.mk ('-' :: L) := by
  unfold lowerStr
  have h2 : L.map lowerChar = L :=
    (List.map_congr_left (fun c hc => lowerChar_digit (hd c hc))).trans (List.map_id L)
  show String.mk (('-' :: L).map lowerChar) = String.mk ('-' :: L)
  rw [List.map_cons, h2, show lowerChar '-' = '-' from by decide]

theorem neg_digits_not_nan {L : List Char} (hd : ∀ c ∈ L, isDigitC c = true) :
    ¬(lowerStr (String.mk ('-' :: L)) = "nan" ∨
      lowerStr (String.mk ('-' :: L)) = "+nan" ∨
      lowerStr (String.mk ('-' :: L)) = "-nan") := by
  rw [neg_digits_lower_self hd]
  intro h
  rcases h with h | h | h
  · have h2 : '-' :: L = "nan".toList := congrArg String.toList h
    injection h2 with h3 h4
    exact absurd h3 (by decide)
  · have h2 : '-' :: L = "+nan".toList := congrArg String.toList h
    injection h2 with h3 h4
    exact absurd h3 (by decide)
  · have h2 : '-' :: L = "-nan".toList := congrArg String.toList h
    injection h2 with h3 h4
    exact absurd (hd 'n' (by rw [h4]; decide)) (by decide)

theorem neg_digits_not_inf {L : List Char} (hd : ∀ c ∈ L, isDigitC c = true) :
    ¬(lowerStr (String.mk ('-' :: L)) = "inf" ∨
      lowerStr (String.mk ('-' :: L)) = "+inf" ∨
      lowerStr (String.mk ('-' :: L)) = "infinity" ∨
      lowerStr (String.mk ('-' :: L)) = "+infinity") := by
  rw [neg_digits_lower_self hd]
  intro h
  rcases h with h | h | h | h <;>
    · have h2 := congrArg String.toList h
      injection h2 with h3 h4
      exact absurd h3 (by decide)

theorem neg_digits_not_neg_inf {L : List Char} (hd : ∀ c ∈ L, isDigitC c = true) :
    ¬(lowerStr (String.mk ('-' :: L)) = "-inf" ∨
      lowerStr (String.mk ('-' :: L)) = "-infinity") := by
  rw [neg_digits_lower_self hd]
  intro h
  rcases h with h | h
  · have h2 : '-' :: L = "-inf".toList := congrArg String.toList h
    injection h2 with h3 h4
    exact absurd (hd 'i' (by rw [h4]; decide)) (by decide)
  · have h2 : '-' :: L = "-infinity".toList := congrArg String.toList h
    injection h2 with h3 h4
    exact absurd (hd 'i' (by rw [h4]; decide)) (by decide)

theorem parseNumber_digits {l : List Char} (hne : l ≠ [])
    (hd : ∀ c ∈ l, isDigitC c = true) :
    parseNumber (String.mk l) = some (NumV.val (digitsVal l) 0) := by
  unfold parseNumber
  have hnw : ∀ c ∈ l, wsChar c = false := fun c hc => wsChar_of_digit (hd c hc)
  have htr : trimChars ((String.mk l).toList) = l := trimChars_of_no_ws hnw
  rw [htr, if_neg (digits_not_nan hd), if_neg (digits_not_inf hd),
    if_neg (digits_not_neg_inf hd)]
  obtain ⟨c, r, rfl⟩ := List.exists_cons_of_ne_nil hne
  have hc := hd c (List.mem_cons_self c r)
  show (if c = '-' then (parseMant r).map (fun p => NumV.val (-p.1) p.2)
    else if c = '+' then (parseMant r).map (fun p => NumV.val p.1 p.2)
    else (parseMant (c :: r)).map (fun p => NumV.val p.1 p.2)) = _
  rw [if_neg (digit_ne_sign hc).1, if_neg (digit_ne_sign hc).2,
    parseMant_digits hne hd]
  rfl

theorem parseNumber_natStr (n : ℕ) : parseNumber (natStr n) = some (NumV.val (n : ℤ) 0) := by
  have h := parseNumber_digits (natStr_toList_ne_nil n) (natStr_toList_digits n)
  rw [show String.mk (natStr n).toList = natStr n from rfl] at h
  rw [h, digitsVal_natStr]

theorem parseNumber_intStr (i : ℤ) : parseNumber (intStr i) = some (NumV.val i 0) := by
  unfold intStr
  by_cases hneg : i < 0
  · rw [if_pos hneg]
    unfold parseNumber
    have hd := natStr_toList_digits i.natAbs
    have hne := natStr_toList_ne_nil i.natAbs
    have hlist : ("-" ++ natStr i.natAbs).toList = '-' :: (natStr i.natAbs).toList := rfl
    have hnw : ∀ c ∈ ('-' :: (natStr i.natAbs).toList), wsChar c = false := by
      intro c hc
      rcases List.mem_cons.mp hc with h | h
      · subst h; decide
      · exact wsChar_of_digit (hd c h)
    rw [show ("-" ++ natStr i.natAbs).toList = '-' :: (natStr i.natAbs).toList from rfl,
      trimChars_of_no_ws hnw, if_neg (neg_digits_not_nan hd),
      if_neg (neg_digits_not_inf hd), if_neg (neg_digits_not_neg_inf hd)]
    show (if ('-' : Char) = '-' then
        (parseMant (natStr i.natAbs).toList).map (fun p => NumV.val (-p.1) p.2)
      else _) = _
    rw [if_pos rfl, parseMant_digits hne hd]
    simp only [Option.map_some']
    rw [digitsVal_natStr]
    have h4 : -((i.natAbs : ℕ) : ℤ) = i := by omega
    rw [h4]
  · rw [if_neg hneg, parseNumber_natStr]
    have : (i.natAbs : ℤ) = i := by omega
    rw [this]


/-! ### Token lemmas: integer strings are never missing tokens -/

theorem string_eta (s : String) : String.mk s.toList = s := by
  cases s
  rfl

theorem digits_str_not_token {l : List Char} (hne : l ≠ [])
    (hd : ∀ c ∈ l, isDigitC c = true) : String.mk l ∉ naValues := by
  intro h
  simp only [naValues, List.mem_cons, List.not_mem_nil, or_false] at h
  obtain ⟨c, r, rfl⟩ := List.exists_cons_of_ne_nil hne
  have hc := hd c (List.mem_cons_self c r)
  rcases h with h | h | h | h | h | h | h | h <;>
    have h2 := congrArg String.toList h <;>
    first
      | (injection h2 with h3 h4; rw [h3] at hc; exact absurd hc (by decide))
      | simp at h2

theorem neg_digits_str_not_token {L : List Char} (hne : L ≠ [])
    (hd : ∀ c ∈ L, isDigitC c = true) : String.mk ('-' :: L) ∉ naValues := by
  intro h
  simp only [naValues, List.mem_cons, List.not_mem_nil, or_false] at h
  rcases h with h | h | h | h | h | h | h | h <;>
    have h2 := congrArg String.toList h <;>
    first
      | (injection h2 with h3 h4; exact absurd h3 (by decide))
      | (injection h2 with h3 h4; exact absurd h4 hne)
      | simp at h2

theorem intStr_no_ws (i : ℤ) : ∀ c ∈ (intStr i).toList, wsChar c = false := by
  intro c hc
  unfold intStr at hc
  by_cases hneg : i < 0
  · rw [if_pos hneg] at hc
    have h2 : c ∈ '-' :: (natStr i.natAbs).toList := hc
    rcases List.mem_cons.mp h2 with h | h
    · subst h; decide
    · exact wsChar_of_digit (natStr_toList_digits _ c h)
  · rw [if_neg hneg] at hc
    exact wsChar_of_digit (natStr_toList_digits _ c hc)

theorem stripStr_intStr (i : ℤ) : stripStr (intStr i) = intStr i :=
  stripStr_of_no_ws (intStr_no_ws i)

theorem intStr_not_token (i : ℤ) : intStr i ∉ naValues := by
  unfold intStr
  by_cases hneg : i < 0
  · rw [if_pos hneg]
    have h2 : "-" ++ natStr i.natAbs = String.mk ('-' :: (natStr i.natAbs).toList) := rfl
    rw [h2]
    exact neg_digits_str_not_token (natStr_toList_ne_nil _) (natStr_toList_digits _)
  · rw [if_neg hneg, ← string_eta (natStr i.natAbs)]
    exact digits_str_not_token (natStr_toList_ne_nil _) (natStr_toList_digits _)

theorem numCell_intStr (n : ℤ) : numCell (intStr n) = some (Cell.flt n 0) := by
  unfold numCell
  rw [stripStr_intStr, if_neg (intStr_not_token n), parseNumber_intStr]

/-! ### dropna lemmas -/

theorem dropnaL_eq_self {l : List Cell} (h : ∀ c ∈ l, c ≠ Cell.na) : dropnaL l = l := by
  unfold dropnaL
  rw [List.filter_eq_self]
  intro a ha
  simpa using h a ha

theorem dropnaL_eq_nil {l : List Cell} (h : ∀ c ∈ l, c = Cell.na) : dropnaL l = [] := by
  unfold dropnaL
  rw [List.filter_eq_nil]
  intro a ha
  simpa using h a ha

theorem mem_of_mem_dropnaL {l : List Cell} {c : Cell} (h : c ∈ dropnaL l) :
    c ∈ l ∧ c ≠ Cell.na := by
  unfold dropnaL at h
  have h2 := List.mem_filter.mp h
  exact ⟨h2.1, by simpa using h2.2⟩

theorem mem_dropnaL_of_mem {l : List Cell} {c : Cell} (hc : c ∈ l) (hne : c ≠ Cell.na) :
    c ∈ dropnaL l := by
  unfold dropnaL
  exact List.mem_filter.mpr ⟨hc, by simpa using hne⟩

/-! ### Branch-unfolding equations for the coercion dispatch -/

theorem convertColumn_datetime (s : Series) :
    convertColumn "datetime64[ns]" s =
      (match mapME to_datetime_cell s.cells with
        | Except.error m => Except.error m
        | Except.ok cs => Except.ok ⟨Dtype.datetime, cs⟩) := rfl

theorem convertColumn_category (s : Series) :
    convertColumn "category" s = Except.ok ⟨Dtype.category, s.cells⟩ := rfl

theorem convertColumn_int64 (s : Series) :
    convertColumn "int64" s =
      (if (s.cells.map toNumericCoerce).all intCastSafe then
        Except.ok ⟨Dtype.int64N, (s.cells.map toNumericCoerce).map intCastCell⟩
      else Except.error intCastErr) := rfl

theorem convertColumn_bool (s : Series) :
    convertColumn "bool" s = astypeBoolean s := rfl

theorem convertColumn_object (s : Series) :
    convertColumn "object" s = Except.ok ⟨Dtype.object, s.cells⟩ := rfl


/-! ### Inversion and success lemmas for the integer coercion -/

theorem convertColumn_int64_ok {s : Series}
    (h : (s.cells.map toNumericCoerce).all intCastSafe = true) :
    convertColumn "int64" s = Except.ok ⟨Dtype.int64N, s.cells.map intCoerceCell⟩ := by
  rw [convertColumn_int64, if_pos h, List.map_map]
  rfl

theorem convertColumn_int64_inv {s t : Series}
    (h : convertColumn "int64" s = Except.ok t) :
    t = ⟨Dtype.int64N, s.cells.map intCoerceCell⟩ := by
  rw [convertColumn_int64] at h
  by_cases hall : (s.cells.map toNumericCoerce).all intCastSafe
  · rw [if_pos hall] at h
    injection h with h2
    rw [← h2, List.map_map]
    rfl
  · rw [if_neg hall] at h
    cases h

/-! ### Claim theorems -/

/-- C1: for a coercion request targeting `datetime64[ns]` on a column of
the table, any cell on which the datetime parser fails makes the whole
request fail with a `ConvError` that names the offending column and
carries the parser message of a failing cell; no per-value nulling can
occur because no `ok` table is returned. -/
theorem datetime_coercion_all_or_nothing (df : Table) (c : String) (s : Series)
    (hlook : lookupCol df c = some s)
    (hfail : ∃ v ∈ s.cells, ∃ m, to_datetime_cell v = Except.error m) :
    ∃ e : ConvError, updateTypes [(c, "datetime64[ns]")] df = Except.error e ∧
      e.column = c ∧ ∃ v ∈ s.cells, to_datetime_cell v = Except.error e.details := by
  rcases mapME_error_of_mem hfail with ⟨m, hm, v, hv, hfv⟩
  refine ⟨⟨c, "datetime64[ns]", m⟩, ?_, rfl, v, hv, hfv⟩
  simp only [updateTypes, hlook, convertColumn_datetime, hm]

/-- Witness for C1 at the spec scenario column. -/
theorem datetime_coercion_all_or_nothing_witness :
    ∃ e : ConvError,
      updateTypes [("d", "datetime64[ns]")]
        [("d", ⟨Dtype.object, [Cell.str "2024-01-01", Cell.str "not-a-date"]⟩)] =
        Except.error e ∧
      e.column = "d" ∧
      ∃ v ∈ [Cell.str "2024-01-01", Cell.str "not-a-date"],
        to_datetime_cell v = Except.error e.details :=
  datetime_coercion_all_or_nothing _ "d" ⟨Dtype.object,
      [Cell.str "2024-01-01", Cell.str "not-a-date"]⟩ (by decide)
    ⟨Cell.str "not-a-date", by decide,
      "Unknown datetime string format, unable to parse: not-a-date", by decide⟩

/-- C2 counterexample: coercing the column `["1.5"]` to integer raises a
hard failure (the pandas `Int64` cast rejects non-integral floats), so
the integer path is not unconditionally soft. -/
theorem integer_coercion_hard_failure :
    convertColumn "int64" ⟨Dtype.object, [Cell.str "1.5"]⟩ = Except.error intCastErr := by
  decide

/-- C2 amended: integer coercion parses every value with
`errors='coerce'`, sending every unparsable value to the sentinel, and
succeeds - even with every value a sentinel - whenever each parsed
value passes the `Int64` safe cast (finite, integral and within the
signed 64-bit range); the spec scenario `["90","abc","70"] →
[90,null,70]` holds.  A parsed value that fails the safe cast instead
fails the whole column: non-integral values (see the counterexample),
integral values beyond the 64-bit range such as `"1e300"`, and
infinities such as `"inf"`. -/
theorem integer_coercion_soft :
    (∀ s : Series, (s.cells.map toNumericCoerce).all intCastSafe = true →
      convertColumn "int64" s = Except.ok ⟨Dtype.int64N, s.cells.map intCoerceCell⟩)
    ∧ (∀ v : String, parseNumber v = none → intCoerceCell (Cell.str v) = Cell.na)
    ∧ convertColumn "int64" ⟨Dtype.object, [Cell.str "90", Cell.str "abc", Cell.str "70"]⟩ =
        Except.ok ⟨Dtype.int64N, [Cell.int 90, Cell.na, Cell.int 70]⟩
    ∧ convertColumn "int64" ⟨Dtype.object, [Cell.str "1e300"]⟩ = Except.error intCastErr
    ∧ convertColumn "int64" ⟨Dtype.object, [Cell.str "inf"]⟩ = Except.error intCastErr := by
  refine ⟨fun s h => convertColumn_int64_ok h, fun v h => ?_, by decide, by decide, by decide⟩
  simp [intCoerceCell, intCastCell, toNumericCoerce, h]

/-- Witness for C2 (all-sentinel column still succeeds). -/
theorem integer_coercion_soft_witness :
    convertColumn "int64" ⟨Dtype.object, [Cell.str "abc", Cell.str "xyz"]⟩ =
      Except.ok ⟨Dtype.int64N, [Cell.str "abc", Cell.str "xyz"].map intCoerceCell⟩ :=
  integer_coercion_soft.1 ⟨Dtype.object, [Cell.str "abc", Cell.str "xyz"]⟩ (by decide)

/-- C4 counterexample: boolean coercion of the column `["yes"]` - a
value inside the classification boolean table - raises the hard pandas
error instead of mapping it to `true` or a sentinel. -/
theorem boolean_coercion_rejects_strings :
    convertColumn "bool" ⟨Dtype.object, [Cell.str "yes"]⟩ = Except.error boolCastErr := by
  decide

/-- C4 amended: boolean coercion is `astype('boolean')`, not the
classification table: boolean cells pass through (missing stays
sentinel), all-numeric columns succeed exactly when every non-missing
value is 0 or 1 (raising the hard pandas error otherwise), and any
string cell makes the whole column raise. -/
theorem boolean_coercion_astype_semantics :
    (∀ s : Series, (∀ c ∈ s.cells, c = Cell.na ∨ ∃ b, c = Cell.bool b) →
      convertColumn "bool" s = Except.ok ⟨Dtype.boolN, s.cells⟩)
    ∧ (∀ s : Series, (∀ c ∈ s.cells, c = Cell.na ∨ c = Cell.int 0 ∨ c = Cell.int 1) →
      convertColumn "bool" s = Except.ok ⟨Dtype.boolN, s.cells.map num01ToBool⟩)
    ∧ (∀ s : Series, (∃ v, Cell.str v ∈ s.cells) →
      ∃ m, convertColumn "bool" s = Except.error m)
    ∧ (∀ s : Series, (dropnaL s.cells).all isNumCell = true → dropnaL s.cells ≠ [] →
      convertColumn "bool" s =
        (if (dropnaL s.cells).all isNum01 then
          Except.ok ⟨Dtype.boolN, s.cells.map num01ToBool⟩
        else Except.error boolCastErr)) := by
  refine ⟨fun s h => ?_, fun s h => ?_, fun s h => ?_, fun s hnum hne => ?_⟩
  · rw [convertColumn_bool]
    unfold astypeBoolean
    rw [if_pos]
    rw [List.all_eq_true]
    intro c hc
    rcases mem_of_mem_dropnaL hc with ⟨hmem, hne⟩
    rcases h c hmem with h1 | ⟨b, h1⟩
    · exact absurd h1 hne
    · subst h1; rfl
  · rw [convertColumn_bool]
    unfold astypeBoolean
    by_cases hallna : ∀ c ∈ s.cells, c = Cell.na
    · rw [if_pos]
      · have hmap : s.cells.map num01ToBool = s.cells := by
          have h2 : ∀ c ∈ s.cells, num01ToBool c = c := by
            intro c hc
            rw [hallna c hc]
            rfl
          rw [List.map_congr_left h2]
          exact List.map_id s.cells
        rw [hmap]
      · rw [dropnaL_eq_nil hallna]
        rfl
    · have hfirst : (dropnaL s.cells).all isBoolCell = false := by
        push_neg at hallna
        rcases hallna with ⟨c0, hc0, hne0⟩
        rcases h c0 hc0 with h1 | h1 | h1
        · exact absurd h1 hne0
        all_goals
          cases hb : (dropnaL s.cells).all isBoolCell
          · rfl
          · rw [List.all_eq_true] at hb
            have := hb c0 (mem_dropnaL_of_mem hc0 hne0)
            rw [h1] at this
            cases this
      rw [if_neg (by rw [hfirst]; intro h2; cases h2), if_pos]
      rw [List.all_eq_true]
      intro c hc
      rcases mem_of_mem_dropnaL hc with ⟨hmem, hne⟩
      rcases h c hmem with h1 | h1 | h1
      · exact absurd h1 hne
      · subst h1; rfl
      · subst h1; rfl
  · rw [convertColumn_bool]
    unfold astypeBoolean
    rcases h with ⟨v, hv⟩
    have hmem : Cell.str v ∈ dropnaL s.cells :=
      mem_dropnaL_of_mem hv (by intro h2; cases h2)
    have h1 : (dropnaL s.cells).all isBoolCell = false := by
      cases hb : (dropnaL s.cells).all isBoolCell
      · rfl
      · rw [List.all_eq_true] at hb
        have := hb _ hmem
        cases this
    have h2 : (dropnaL s.cells).all isNum01 = false := by
      cases hb : (dropnaL s.cells).all isNum01
      · rfl
      · rw [List.all_eq_true] at hb
        have := hb _ hmem
        cases this
    rw [if_neg (by rw [h1]; intro h3; cases h3),
      if_neg (by rw [h2]; intro h3; cases h3)]
    exact ⟨boolCastErr, rfl⟩
  · rw [convertColumn_bool]
    unfold astypeBoolean
    have hfirst : (dropnaL s.cells).all isBoolCell = false := by
      obtain ⟨c0, hc0⟩ := List.exists_mem_of_ne_nil _ hne
      have hn0 := (List.all_eq_true.mp hnum) c0 hc0
      cases hb : (dropnaL s.cells).all isBoolCell with
      | false => rfl
      | true =>
        have hb0 := (List.all_eq_true.mp hb) c0 hc0
        cases c0 with
        | int n => cases hb0
        | flt m e => cases hb0
        | inf b => cases hb0
        | str v => cases hn0
        | bool b => cases hn0
        | date n => cases hn0
        | na => cases hn0
    rw [if_neg (by rw [hfirst]; intro h3; cases h3)]

/-- Witness for C4: boolean passthrough, exact-0/1 numeric mapping and
the hard failure of a numeric non-0/1 column at concrete columns. -/
theorem boolean_coercion_astype_semantics_witness :
    convertColumn "bool" ⟨Dtype.object, [Cell.bool true, Cell.na]⟩ =
      Except.ok ⟨Dtype.boolN, [Cell.bool true, Cell.na]⟩ ∧
    convertColumn "bool" ⟨Dtype.int64N, [Cell.int 1, Cell.na, Cell.int 0]⟩ =
      Except.ok ⟨Dtype.boolN, [Cell.int 1, Cell.na, Cell.int 0].map num01ToBool⟩ ∧
    (∃ m, convertColumn "bool" ⟨Dtype.object, [Cell.str "True"]⟩ = Except.error m) ∧
    convertColumn "bool" ⟨Dtype.float64, [Cell.flt 2 0]⟩ = Except.error boolCastErr :=
  ⟨boolean_coercion_astype_semantics.1 ⟨Dtype.object, [Cell.bool true, Cell.na]⟩ (by decide),
   boolean_coercion_astype_semantics.2.1 ⟨Dtype.int64N, [Cell.int 1, Cell.na, Cell.int 0]⟩
     (by decide),
   boolean_coercion_astype_semantics.2.2.1 ⟨Dtype.object, [Cell.str "True"]⟩
     ⟨"True", by decide⟩,
   (boolean_coercion_astype_semantics.2.2.2 ⟨Dtype.float64, [Cell.flt 2 0]⟩
     (by decide) (by decide)).trans (by decide)⟩

/-- C6 counterexample: the `text` path (`astype('object')`) does not
stringify - an integer cell stays an integer object, it does not become
the numeric string. -/
theorem text_coercion_not_stringify :
    convertColumn "object" ⟨Dtype.int64N, [Cell.int 90]⟩ =
      Except.ok ⟨Dtype.object, [Cell.int 90]⟩ ∧ Cell.int 90 ≠ Cell.str "90" := by
  decide

/-- C6 amended: coercing a column to integer and then to text re-tags
the integer result as object without touching the values: positions
that parsed hold the parsed integers (not the original strings),
failed positions hold the sentinel, and missing values stay missing. -/
theorem integer_then_text_roundtrip (s t : Series)
    (h : convertColumn "int64" s = Except.ok t) :
    convertColumn "object" t = Except.ok ⟨Dtype.object, t.cells⟩ ∧
    t.cells = s.cells.map intCoerceCell := by
  refine ⟨convertColumn_object t, ?_⟩
  rw [convertColumn_int64_inv h]

/-- Witness for C6 at the column `["90", "abc"]`. -/
theorem integer_then_text_roundtrip_witness :
    convertColumn "object" ⟨Dtype.int64N, [Cell.int 90, Cell.na]⟩ =
      Except.ok ⟨Dtype.object, [Cell.int 90, Cell.na]⟩ ∧
    ([Cell.int 90, Cell.na] : List Cell) =
      [Cell.str "90", Cell.str "abc"].map intCoerceCell :=
  integer_then_text_roundtrip ⟨Dtype.object, [Cell.str "90", Cell.str "abc"]⟩
    ⟨Dtype.int64N, [Cell.int 90, Cell.na]⟩ (by decide)

/-- C10: a successful coercion request leaves every column whose name is
not mentioned in the request exactly in place - same position, same
name, same dtype tag and same values. -/
theorem untouched_columns_preserved (reqs : List (String × String)) (df out : Table)
    (h : updateTypes reqs df = Except.ok out) :
    ∀ (i : ℕ) (n : String) (s : Series), df.get? i = some (n, s) →
      (∀ p ∈ reqs, p.1 ≠ n) → out.get? i = some (n, s) := by
  induction reqs generalizing df with
  | nil =>
    intro i n s hget hnot
    simp only [updateTypes] at h
    injection h with h2
    rw [← h2]
    exact hget
  | cons p rest ih =>
    intro i n s hget hnot
    obtain ⟨c, ty⟩ := p
    simp only [updateTypes] at h
    split at h
    next => cases h
    next s0 hlook =>
      split at h
      next m hconv => cases h
      next s2 hconv =>
        have hc_ne : n ≠ c :=
          Ne.symm (hnot (c, ty) (List.mem_cons_self _ _))
        have hset : (setCol df c s2).get? i = some (n, s) := by
          unfold setCol
          rw [List.get?_map, hget]
          simp only [Option.map_some']
          rw [if_neg hc_ne]
        exact ih (setCol df c s2) h i n s hset
          (fun q hq => hnot q (List.mem_cons_of_mem _ hq))

/-- Witness for C10: converting column `a` leaves column `b` unchanged. -/
theorem untouched_columns_preserved_witness :
    updateTypes [("a", "int64")]
        [("a", ⟨Dtype.object, [Cell.str "1"]⟩), ("b", ⟨Dtype.object, [Cell.str "x"]⟩)] =
      Except.ok
        [("a", ⟨Dtype.int64N, [Cell.int 1]⟩), ("b", ⟨Dtype.object, [Cell.str "x"]⟩)] ∧
    ([("a", (⟨Dtype.int64N, [Cell.int 1]⟩ : Series)),
      ("b", ⟨Dtype.object, [Cell.str "x"]⟩)].get? 1 =
        some ("b", ⟨Dtype.object, [Cell.str "x"]⟩)) :=
  ⟨by decide,
   untouched_columns_preserved [("a", "int64")]
     [("a", ⟨Dtype.object, [Cell.str "1"]⟩), ("b", ⟨Dtype.object, [Cell.str "x"]⟩)]
     [("a", ⟨Dtype.int64N, [Cell.int 1]⟩), ("b", ⟨Dtype.object, [Cell.str "x"]⟩)]
     (by decide) 1 "b" ⟨Dtype.object, [Cell.str "x"]⟩ (by decide) (by decide)⟩


/-! ### Branch lemmas for the classifier cascade -/

theorem stripSeries_dtype (s : Series) : (stripSeries s).dtype = s.dtype := rfl

theorem infer_column_type_object {s : Series} (h : s.dtype = Dtype.object) :
    infer_column_type s = infer_column_core (stripSeries s) := by
  unfold infer_column_type
  rw [if_pos h]

theorem infer_column_type_nonobject {s : Series} (h : s.dtype ≠ Dtype.object) :
    infer_column_type s = infer_column_core s := by
  unfold infer_column_type
  rw [if_neg h]

theorem infer_core_datetime {s : Series} (h : s.dtype = Dtype.datetime) :
    infer_column_core s = s := by
  unfold infer_column_core
  rw [if_pos h]

theorem infer_core_boolRaw {s : Series} (h : s.dtype = Dtype.boolRaw) :
    infer_column_core s = s := by
  unfold infer_column_core
  rw [if_neg (by rw [h]; decide), if_pos h]

theorem infer_core_boolean {s : Series} (h1 : s.dtype ≠ Dtype.datetime)
    (h2 : s.dtype ≠ Dtype.boolRaw) (h3 : is_boolean s = true) :
    infer_column_core s = convert_to_boolean s := by
  unfold infer_column_core
  rw [if_neg h1, if_neg h2, if_pos h3]

theorem infer_core_numeric {s ns : Series} (h1 : s.dtype ≠ Dtype.datetime)
    (h2 : s.dtype ≠ Dtype.boolRaw) (h3 : is_boolean s = false)
    (h4 : is_numeric_with_na s = (true, ns)) :
    infer_column_core s = ns := by
  unfold infer_column_core
  rw [if_neg h1, if_neg h2, if_neg (by rw [h3]; intro h; cases h), h4]

theorem infer_core_date {s s' : Series} (h1 : s.dtype ≠ Dtype.datetime)
    (h2 : s.dtype ≠ Dtype.boolRaw) (h3 : is_boolean s = false)
    (h4 : is_numeric_with_na s = (false, s')) (h5 : s.dtype = Dtype.object)
    (h6 : (dropna s).all is_date = true) :
    infer_column_core s = ⟨Dtype.datetime, s.cells.map toDatetimeCellI⟩ := by
  unfold infer_column_core
  rw [if_neg h1, if_neg h2, if_neg (by rw [h3]; intro h; cases h), h4,
    if_pos ⟨h5, h6⟩]

theorem infer_core_categorical {s s' : Series} (h1 : s.dtype ≠ Dtype.datetime)
    (h2 : s.dtype ≠ Dtype.boolRaw) (h3 : is_boolean s = false)
    (h4 : is_numeric_with_na s = (false, s'))
    (h5 : ¬(s.dtype = Dtype.object ∧ (dropna s).all is_date = true))
    (h6 : is_categorical s = true) :
    infer_column_core s = ⟨Dtype.category, s.cells⟩ := by
  unfold infer_column_core
  rw [if_neg h1, if_neg h2, if_neg (by rw [h3]; intro h; cases h), h4,
    if_neg h5, if_pos h6]

theorem infer_core_text {s s' : Series} (h1 : s.dtype ≠ Dtype.datetime)
    (h2 : s.dtype ≠ Dtype.boolRaw) (h3 : is_boolean s = false)
    (h4 : is_numeric_with_na s = (false, s'))
    (h5 : ¬(s.dtype = Dtype.object ∧ (dropna s).all is_date = true))
    (h6 : is_categorical s = false) :
    infer_column_core s = s := by
  unfold infer_column_core
  rw [if_neg h1, if_neg h2, if_neg (by rw [h3]; intro h; cases h), h4,
    if_neg h5, if_neg (by rw [h6]; intro h; cases h)]

theorem convert_to_boolean_dtype (s : Series) :
    (convert_to_boolean s).dtype = Dtype.boolN := by
  unfold convert_to_boolean
  by_cases h : s.dtype = Dtype.int64 ∨ s.dtype = Dtype.int64N ∨ s.dtype = Dtype.float64
  · rw [if_pos h]
  · rw [if_neg h]

theorem is_numeric_dtype {s ns : Series} (h : is_numeric_with_na s = (true, ns)) :
    ns.dtype = Dtype.int64N ∨ ns.dtype = Dtype.float64 := by
  unfold is_numeric_with_na at h
  split at h
  · injection h with h1 h2
    cases h1
  · split at h
    · split at h
      · injection h with h1 h2
        left
        rw [← h2]
      · injection h with h1 h2
        cases h1
    · injection h with h1 h2
      right
      rw [← h2]

theorem is_numeric_false_inv {s ns : Series} (h : is_numeric_with_na s = (false, ns)) :
    ns = s := by
  unfold is_numeric_with_na at h
  split at h
  · injection h with h1 h2
    exact h2.symm
  · split at h
    · split at h
      · injection h with h1 h2
        cases h1
      · injection h with h1 h2
        exact h2.symm
    · injection h with h1 h2
      cases h1

/-- Inversion: an object-typed classifier output means every rule
failed, the input was an object column and the output is the input
unchanged. -/
theorem infer_core_object_inv {s : Series}
    (h : (infer_column_core s).dtype = Dtype.object) :
    s.dtype = Dtype.object ∧ infer_column_core s = s ∧ is_boolean s = false ∧
    is_numeric_with_na s = (false, s) ∧
    (dropna s).all is_date = false ∧ is_categorical s = false := by
  by_cases h1 : s.dtype = Dtype.datetime
  · rw [infer_core_datetime h1] at h
    rw [h1] at h
    cases h
  by_cases h2 : s.dtype = Dtype.boolRaw
  · rw [infer_core_boolRaw h2] at h
    rw [h2] at h
    cases h
  by_cases h3 : is_boolean s = true
  · rw [infer_core_boolean h1 h2 h3, convert_to_boolean_dtype] at h
    cases h
  have h3f : is_boolean s = false := by
    cases hb : is_boolean s
    · rfl
    · exact absurd hb h3
  cases hnum : is_numeric_with_na s with
  | mk b ns =>
    cases b
    · have hns : ns = s := is_numeric_false_inv hnum
      rw [hns] at hnum
      by_cases h5 : s.dtype = Dtype.object ∧ (dropna s).all is_date = true
      · rw [infer_core_date h1 h2 h3f hnum h5.1 h5.2] at h
        cases h
      by_cases h6 : is_categorical s = true
      · rw [infer_core_categorical h1 h2 h3f hnum h5 h6] at h
        cases h
      have h6f : is_categorical s = false := by
        cases hb : is_categorical s
        · rfl
        · exact absurd hb h6
      have hout := infer_core_text h1 h2 h3f hnum h5 h6f
      rw [hout] at h
      refine ⟨h, hout, h3f, by rw [hns], ?_, h6f⟩
      cases hdd : (dropna s).all is_date
      · rfl
      · exact absurd ⟨h, hdd⟩ h5
    · rw [infer_core_numeric h1 h2 h3f hnum] at h
      rcases is_numeric_dtype hnum with hdt | hdt <;> rw [hdt] at h <;> cases h


/-! ### Helper lemmas for the numeric rule -/

theorem is_numeric_of_mapMO_some {s : Series} {cs : List Cell}
    (hm : mapMO (fun c => numCell (astypeStrCell s.dtype c)) s.cells = some cs) :
    is_numeric_with_na s =
      (if !(dropnaL cs).isEmpty && (dropnaL cs).all numIntegral then
        (if cs.all intCastSafe then (true, ⟨Dtype.int64N, cs.map intCastCell⟩)
          else (false, s))
      else (true, ⟨Dtype.float64, cs⟩)) := by
  unfold is_numeric_with_na
  rw [hm]

theorem is_numeric_of_mapMO_none {s : Series}
    (hm : mapMO (fun c => numCell (astypeStrCell s.dtype c)) s.cells = none) :
    is_numeric_with_na s = (false, s) := by
  unfold is_numeric_with_na
  rw [hm]

/-- A false verdict always returns the column itself. -/
theorem is_numeric_false_of_fst {s : Series}
    (h : (is_numeric_with_na s).1 = false) :
    is_numeric_with_na s = (false, s) := by
  cases hm : mapMO (fun c => numCell (astypeStrCell s.dtype c)) s.cells with
  | none => exact is_numeric_of_mapMO_none hm
  | some cs =>
    rw [is_numeric_of_mapMO_some hm] at h ⊢
    by_cases h1 : (!(dropnaL cs).isEmpty && (dropnaL cs).all numIntegral) = true
    · rw [if_pos h1] at h ⊢
      by_cases h2 : cs.all intCastSafe = true
      · rw [if_pos h2] at h
        cases h
      · rw [if_neg h2]
    · rw [if_neg h1] at h
      cases h

/-- The verdict of `is_numeric_with_na` depends only on the parsed
cells, not on the dtype tag or the original cells. -/
theorem is_numeric_fst_congr {s t : Series}
    (h : mapMO (fun c => numCell (astypeStrCell s.dtype c)) s.cells =
         mapMO (fun c => numCell (astypeStrCell t.dtype c)) t.cells) :
    (is_numeric_with_na s).1 = (is_numeric_with_na t).1 := by
  cases hm : mapMO (fun c => numCell (astypeStrCell t.dtype c)) t.cells with
  | none =>
    rw [is_numeric_of_mapMO_none (h.trans hm), is_numeric_of_mapMO_none hm]
  | some cs =>
    rw [is_numeric_of_mapMO_some (h.trans hm), is_numeric_of_mapMO_some hm]
    by_cases h1 : (!(dropnaL cs).isEmpty && (dropnaL cs).all numIntegral) = true
    · rw [if_pos h1, if_pos h1]
      by_cases h2 : cs.all intCastSafe = true
      · rw [if_pos h2, if_pos h2]
      · rw [if_neg h2, if_neg h2]
    · rw [if_neg h1, if_neg h1]

/-- A nullable-integer verdict certifies that every integer cell of
the output fits the signed 64-bit range (the `Int64` construction
would have raised otherwise). -/
theorem is_numeric_int64N_cells {s ns : Series}
    (h : is_numeric_with_na s = (true, ns)) (hdt : ns.dtype = Dtype.int64N) :
    ns.cells.all cellI64 = true := by
  cases hm : mapMO (fun c => numCell (astypeStrCell s.dtype c)) s.cells with
  | none =>
    rw [is_numeric_of_mapMO_none hm] at h
    injection h with h1 _
    cases h1
  | some cs =>
    rw [is_numeric_of_mapMO_some hm] at h
    by_cases h1 : (!(dropnaL cs).isEmpty && (dropnaL cs).all numIntegral) = true
    · rw [if_pos h1] at h
      by_cases hsafe : cs.all intCastSafe = true
      · rw [if_pos hsafe] at h
        injection h with _ h2
        rw [← h2]
        rw [List.all_eq_true] at hsafe ⊢
        intro c hc
        rcases List.mem_map.mp hc with ⟨x, hx, rfl⟩
        have hxs := hsafe x hx
        cases x with
        | flt m e =>
          show inI64 (fltToInt m e) = true
          rw [show intCastSafe (Cell.flt m e) =
            (fltIntegral m e && inI64 (fltToInt m e)) from rfl,
            Bool.and_eq_true] at hxs
          exact hxs.2
        | int n => exact hxs
        | str v => rfl
        | inf b => rfl
        | bool b => rfl
        | date n => rfl
        | na => rfl
      · rw [if_neg hsafe] at h
        injection h with h1 _
        cases h1
    · rw [if_neg h1] at h
      injection h with _ h2
      rw [← h2] at hdt
      cases hdt

theorem filterMap_all_some {α β : Type} {f : α → Option β} {g : α → β} {l : List α}
    (h : ∀ a ∈ l, f a = some (g a)) : l.filterMap f = l.map g := by
  induction l with
  | nil => rfl
  | cons a t ih =>
    rw [List.filterMap_cons, h a (List.mem_cons_self a t), List.map_cons,
      ih (fun b hb => h b (List.mem_cons_of_mem a hb))]

/-- The object-dtype branch of `convert_to_boolean`, written without the
outer dtype test. -/
theorem convert_to_boolean_object {s : Series} (hdt : s.dtype = Dtype.object) :
    convert_to_boolean s = ⟨Dtype.boolN, s.cells.map (fun c =>
      if c = Cell.na then Cell.na
      else
        match boolMapLookup (lowerStr (cellObjStr c)) with
        | some b => Cell.bool b
        | none => Cell.na)⟩ := by
  unfold convert_to_boolean
  rw [if_neg (by rw [hdt]; decide), hdt]
  rfl

/-! ### Claim theorems for the classifier -/

/-- C3 counterexample: a float64 column whose values are exactly 0 and 1
is NOT classified boolean - `is_boolean` ignores float dtypes, so the
numeric rule claims it as a nullable integer column instead. -/
theorem boolean_rule_skips_float01 :
    infer_column_type ⟨Dtype.float64, [Cell.flt 0 0, Cell.flt 1 0]⟩ =
      ⟨Dtype.int64N, [Cell.int 0, Cell.int 1]⟩ ∧
    Dtype.int64N ≠ Dtype.boolN := by decide

/-- C3 amended: columns of 0/1 values classify boolean (1 to true, 0 to
false, missing to sentinel) when textual or integer-typed; float-typed
0/1 columns are excluded (see the counterexample). -/
theorem boolean_rule_01_columns (s : Series)
    (h : (s.dtype = Dtype.object ∧ ∀ c ∈ s.cells, c = Cell.na ∨
            ∃ v, c = Cell.str v ∧ (stripStr v = "0" ∨ stripStr v = "1")) ∨
         ((s.dtype = Dtype.int64 ∨ s.dtype = Dtype.int64N) ∧
            ∀ c ∈ s.cells, c = Cell.na ∨ c = Cell.int 0 ∨ c = Cell.int 1)) :
    infer_column_type s = ⟨Dtype.boolN, s.cells.map bool01Cell⟩ := by
  rcases h with ⟨hdt, hcells⟩ | ⟨hdt, hcells⟩
  · -- textual column
    rw [infer_column_type_object hdt]
    have hsd : (stripSeries s).dtype = Dtype.object := hdt
    have hbool : is_boolean (stripSeries s) = true := by
      unfold is_boolean
      rw [if_neg (by rw [hsd]; decide), if_pos hsd, List.all_eq_true]
      intro c hc
      rcases mem_of_mem_dropnaL hc with ⟨hmem, hne⟩
      rcases List.mem_map.mp hmem with ⟨c0, hc0, rfl⟩
      rcases hcells c0 hc0 with h1 | ⟨v, rfl, h1⟩
      · subst h1; exact absurd rfl hne
      · show decide (lowerStr (cellObjStr (Cell.str (stripStr v))) ∈ boolTokens) = true
        rcases h1 with h1 | h1 <;> rw [show cellObjStr (Cell.str (stripStr v)) =
          stripStr v from rfl, h1] <;> decide
    rw [infer_core_boolean (by rw [hsd]; decide) (by rw [hsd]; decide) hbool,
      convert_to_boolean_object hsd]
    show Series.mk Dtype.boolN ((s.cells.map stripCell).map _) = _
    rw [List.map_map]
    refine congrArg (Series.mk Dtype.boolN) (List.map_congr_left ?_)
    intro c0 hc0
    rcases hcells c0 hc0 with h1 | ⟨v, rfl, h1⟩
    · subst h1; rfl
    · rcases h1 with h1 | h1 <;>
        simp only [Function.comp_apply, stripCell, bool01Cell, h1] <;> decide
  · -- integer-typed column
    have hno : s.dtype ≠ Dtype.object := by
      rcases hdt with h1 | h1 <;> rw [h1] <;> decide
    rw [infer_column_type_nonobject hno]
    have hbool : is_boolean s = true := by
      unfold is_boolean
      rw [if_pos hdt, List.all_eq_true]
      intro c hc
      rcases mem_of_mem_dropnaL hc with ⟨hmem, hne⟩
      rcases hcells c hmem with h1 | h1 | h1
      · exact absurd h1 hne
      · subst h1; decide
      · subst h1; decide
    have h1 : s.dtype ≠ Dtype.datetime := by
      rcases hdt with h2 | h2 <;> rw [h2] <;> decide
    have h2 : s.dtype ≠ Dtype.boolRaw := by
      rcases hdt with h2 | h2 <;> rw [h2] <;> decide
    rw [infer_core_boolean h1 h2 hbool]
    unfold convert_to_boolean
    rw [if_pos (by rcases hdt with h3 | h3 <;> rw [h3] <;> decide
          : s.dtype = Dtype.int64 ∨ s.dtype = Dtype.int64N ∨ s.dtype = Dtype.float64)]
    refine congrArg (Series.mk Dtype.boolN) (List.map_congr_left ?_)
    intro c0 hc0
    rcases hcells c0 hc0 with h3 | h3 | h3 <;> subst h3 <;> rfl

/-- Witness for C3: a textual 0/1 column (with whitespace and a missing
cell) and an integer 0/1 column both classify boolean. -/
theorem boolean_rule_01_columns_witness :
    infer_column_type ⟨Dtype.object, [Cell.str " 1 ", Cell.str "0", Cell.na]⟩ =
      ⟨Dtype.boolN, [Cell.str " 1 ", Cell.str "0", Cell.na].map bool01Cell⟩ :=
  boolean_rule_01_columns ⟨Dtype.object, [Cell.str " 1 ", Cell.str "0", Cell.na]⟩
    (Or.inl ⟨rfl, by
      intro c hc
      simp only [List.mem_cons, List.not_mem_nil, or_false] at hc
      rcases hc with rfl | rfl | rfl
      · exact Or.inr ⟨" 1 ", rfl, Or.inr (by decide)⟩
      · exact Or.inr ⟨"0", rfl, Or.inl (by decide)⟩
      · exact Or.inl rfl⟩)

/-- C7 counterexample: a column consisting only of the recognized
missing token `"NA"` IS classified numeric - the rule returns a float64
column of sentinels without requiring any parsed value. -/
theorem all_token_column_is_numeric :
    infer_column_type ⟨Dtype.object, [Cell.str "NA"]⟩ = ⟨Dtype.float64, [Cell.na]⟩ := by
  decide

/-- C7 amended: a nonempty column whose cells are all recognized missing
tokens classifies as numeric float64 with every value the sentinel (the
numeric rule does not require a successfully parsed value); only a
column with no non-missing cell at all escapes the numeric rule, and it
is then claimed by the vacuous boolean rule (all-sentinel nullable
boolean), not by a numeric type. -/
theorem all_token_column_classification :
    (∀ s : Series, s.dtype = Dtype.object → s.cells ≠ [] →
      (∀ c ∈ s.cells, ∃ v, c = Cell.str v ∧ stripStr v ∈ naValues) →
      infer_column_type s = ⟨Dtype.float64, s.cells.map (fun _ => Cell.na)⟩)
    ∧ (∀ s : Series, s.dtype = Dtype.object → (∀ c ∈ s.cells, c = Cell.na) →
      infer_column_type s = ⟨Dtype.boolN, s.cells.map (fun _ => Cell.na)⟩) := by
  have htok : ∀ u ∈ naValues, stripStr u ∈ naValues ∧
      lowerStr u ∉ boolTokens := by decide
  constructor
  · intro s hdt hne hcells
    rw [infer_column_type_object hdt]
    have hsd : (stripSeries s).dtype = Dtype.object := hdt
    -- the boolean rule fails: the first cell is a token, not a boolean word
    obtain ⟨c0, hc0⟩ := List.exists_mem_of_ne_nil s.cells hne
    rcases hcells c0 hc0 with ⟨v, rfl, hv⟩
    have hbool : is_boolean (stripSeries s) = false := by
      unfold is_boolean
      rw [if_neg (by rw [hsd]; decide), if_pos hsd]
      cases hb : (dropna (stripSeries s)).all
          (fun c => decide (lowerStr (cellObjStr c) ∈ boolTokens)) with
      | false => rfl
      | true =>
        rw [List.all_eq_true] at hb
        have hmem : Cell.str (stripStr v) ∈ (stripSeries s).cells :=
          List.mem_map.mpr ⟨Cell.str v, hc0, rfl⟩
        have := hb _ (mem_dropnaL_of_mem hmem (by intro h2; cases h2))
        rw [decide_eq_true_iff] at this
        exact absurd this (htok (stripStr v) hv).2
    -- the numeric rule masks every cell to the sentinel
    have hmap : mapMO (fun c => numCell (astypeStrCell (stripSeries s).dtype c))
        (stripSeries s).cells = some ((stripSeries s).cells.map (fun _ => Cell.na)) := by
      apply mapMO_eq_some_map
      intro a ha
      rcases List.mem_map.mp ha with ⟨b, hb, rfl⟩
      rcases hcells b hb with ⟨w, rfl, hw⟩
      show numCell (astypeStrCell (stripSeries s).dtype (Cell.str (stripStr w))) = some Cell.na
      show numCell (stripStr w) = some Cell.na
      unfold numCell
      rw [if_pos (htok (stripStr w) hw).1]
    have hnum : is_numeric_with_na (stripSeries s) =
        (true, ⟨Dtype.float64, (stripSeries s).cells.map (fun _ => Cell.na)⟩) := by
      rw [is_numeric_of_mapMO_some hmap]
      rw [if_neg]
      intro hcond
      rw [Bool.and_eq_true] at hcond
      have hdn : dropnaL ((stripSeries s).cells.map (fun _ => Cell.na)) = [] := by
        apply dropnaL_eq_nil
        intro a ha
        rcases List.mem_map.mp ha with ⟨b, hb, rfl⟩
        rfl
      rw [hdn] at hcond
      cases hcond.1
    rw [infer_core_numeric (by rw [hsd]; decide) (by rw [hsd]; decide) hbool hnum]
    show Series.mk Dtype.float64 ((s.cells.map stripCell).map (fun _ => Cell.na)) = _
    rw [List.map_map]
    rfl
  · intro s hdt hcells
    rw [infer_column_type_object hdt]
    have hsd : (stripSeries s).dtype = Dtype.object := hdt
    have hbool : is_boolean (stripSeries s) = true := by
      unfold is_boolean
      rw [if_neg (by rw [hsd]; decide), if_pos hsd]
      have hdn : dropna (stripSeries s) = [] := by
        apply dropnaL_eq_nil
        intro c hc
        rcases List.mem_map.mp hc with ⟨b, hb, rfl⟩
        rw [hcells b hb]
        rfl
      rw [show dropna (stripSeries s) = dropnaL (stripSeries s).cells from rfl] at hdn
      show ((dropnaL (stripSeries s).cells).all _) = true
      rw [hdn]
      rfl
    rw [infer_core_boolean (by rw [hsd]; decide) (by rw [hsd]; decide) hbool,
      convert_to_boolean_object hsd]
    show Series.mk Dtype.boolN ((s.cells.map stripCell).map _) = _
    rw [List.map_map]
    refine congrArg (Series.mk Dtype.boolN) (List.map_congr_left ?_)
    intro c0 hc0
    rw [hcells c0 hc0]
    rfl

/-- Witness for C7: a two-token column turns into an all-sentinel
float64, and an all-missing column into an all-sentinel boolean. -/
theorem all_token_column_classification_witness :
    infer_column_type ⟨Dtype.object, [Cell.str "N/A", Cell.str "-"]⟩ =
      ⟨Dtype.float64, [Cell.str "N/A", Cell.str "-"].map (fun _ => Cell.na)⟩ ∧
    infer_column_type ⟨Dtype.object, [Cell.na, Cell.na]⟩ =
      ⟨Dtype.boolN, [Cell.na, Cell.na].map (fun _ => Cell.na)⟩ :=
  ⟨all_token_column_classification.1 ⟨Dtype.object, [Cell.str "N/A", Cell.str "-"]⟩
      rfl (by decide)
      (by
        intro c hc
        simp only [List.mem_cons, List.not_mem_nil, or_false] at hc
        rcases hc with rfl | rfl
        · exact ⟨"N/A", rfl, by decide⟩
        · exact ⟨"-", rfl, by decide⟩),
   all_token_column_classification.2 ⟨Dtype.object, [Cell.na, Cell.na]⟩ rfl (by decide)⟩

/-- C8 counterexample: the lower-cased token `"na"` is not recognized -
the numeric rule aborts on `["na", "1"]` instead of treating `"na"` as
a sentinel, because the `isin` membership test is case-sensitive. -/
theorem token_match_case_sensitive :
    is_numeric_with_na ⟨Dtype.object, [Cell.str "na", Cell.str "1"]⟩ =
      (false, ⟨Dtype.object, [Cell.str "na", Cell.str "1"]⟩) ∧
    stripStr "na" ∉ naValues := by decide

/-- C8 amended: token recognition is exact, case-sensitive membership in
the fixed list: whenever the numeric rule succeeds, every cell whose
stripped text is literally one of the eight tokens comes out as the
sentinel.  (Other casings such as `"na"` or `"NOT AVAILABLE"` are not
tokens and abort the rule when a numeric value is present, per the
counterexample.) -/
theorem token_recognition_exact (s t : Series)
    (h : is_numeric_with_na s = (true, t)) (i : ℕ) (v : String)
    (hc : s.cells.get? i = some (Cell.str v)) (htok : stripStr v ∈ naValues) :
    t.cells.get? i = some Cell.na := by
  cases hm : mapMO (fun c => numCell (astypeStrCell s.dtype c)) s.cells with
  | none =>
    rw [is_numeric_of_mapMO_none hm] at h
    injection h with h1 _
    cases h1
  | some cs =>
    rcases mapMO_get? hm hc with ⟨b, hb, hcs⟩
    have hbna : b = Cell.na := by
      have h2 : numCell (astypeStrCell s.dtype (Cell.str v)) = some Cell.na := by
        show numCell v = some Cell.na
        unfold numCell
        rw [if_pos htok]
      rw [h2] at hb
      injection hb with h3
      exact h3.symm
    subst hbna
    rw [is_numeric_of_mapMO_some hm] at h
    split at h
    · split at h
      · injection h with _ h2
        rw [← h2]
        show (cs.map intCastCell).get? i = some Cell.na
        rw [List.get?_map, hcs]
        rfl
      · injection h with h1 _
        cases h1
    · injection h with _ h2
      rw [← h2]
      exact hcs

/-- Witness for C8: the exact-case token `"NA"` maps to the sentinel
when the rest of the column is numeric. -/
theorem token_recognition_exact_witness :
    (⟨Dtype.int64N, [Cell.na, Cell.int 1]⟩ : Series).cells.get? 0 = some Cell.na :=
  token_recognition_exact ⟨Dtype.object, [Cell.str "NA", Cell.str "1"]⟩
    ⟨Dtype.int64N, [Cell.na, Cell.int 1]⟩ (by decide) 0 "NA" (by decide) (by decide)

/-- C9: for textual (object) columns the categorical rule holds exactly
when there are at most 10 distinct non-missing values all one character
long, or the distinct/total ratio is strictly below one half with at
least 10 non-missing values; in particular 10 distinct of 25 qualifies
and 13 distinct of 20 does not. -/
theorem categorical_rule_characterization :
    (∀ s : Series, s.dtype = Dtype.object →
      (is_categorical s = true ↔
        ((uniqueCells (dropna s)).length ≤ 10 ∧
          ∀ c ∈ uniqueCells (dropna s), (cellObjStr c).length = 1) ∨
        ((((uniqueCells (dropna s)).length : ℚ) / ((dropna s).length : ℚ) < 1 / 2) ∧
          10 ≤ (dropna s).length)))
    ∧ is_categorical ⟨Dtype.object, (List.replicate 16 (Cell.str "v9")) ++
        [Cell.str "v0", Cell.str "v1", Cell.str "v2", Cell.str "v3", Cell.str "v4",
         Cell.str "v5", Cell.str "v6", Cell.str "v7", Cell.str "v8"]⟩ = true
    ∧ is_categorical ⟨Dtype.object, (List.replicate 8 (Cell.str "w00")) ++
        [Cell.str "w01", Cell.str "w02", Cell.str "w03", Cell.str "w04", Cell.str "w05",
         Cell.str "w06", Cell.str "w07", Cell.str "w08", Cell.str "w09", Cell.str "w10",
         Cell.str "w11", Cell.str "w12"]⟩ = false := by
  refine ⟨fun s hdt => ?_, by decide, by decide⟩
  unfold is_categorical
  rw [if_neg (by rw [hdt]; decide)]
  by_cases hb : s.dtype = Dtype.object ∧ (uniqueCells (dropna s)).length ≤ 10 ∧
      (uniqueCells (dropna s)).all (fun c => (cellObjStr c).length == 1) = true
  · rw [if_pos hb]
    simp only [true_iff]
    left
    refine ⟨hb.2.1, ?_⟩
    intro c hc
    have h2 := (List.all_eq_true.mp hb.2.2) c hc
    rw [beq_iff_eq] at h2
    exact h2
  · rw [if_neg hb]
    rw [decide_eq_true_eq]
    constructor
    · rintro ⟨hpos, hlt, hge⟩
      right
      refine ⟨?_, hge⟩
      rw [div_lt_iff (by exact_mod_cast hpos)]
      push_cast
      rw [one_div, inv_mul_eq_div, lt_div_iff (by norm_num : (0:ℚ) < 2)]
      exact_mod_cast (by omega : ((uniqueCells (dropna s)).length * 2 : ℕ) <
        (dropna s).length)
    · rintro (⟨hlen, hone⟩ | ⟨hr, hge⟩)
      · refine absurd ⟨hdt, hlen, List.all_eq_true.mpr ?_⟩ hb
        intro c hc
        rw [beq_iff_eq]
        exact hone c hc
      · have hpos : 0 < (dropna s).length := by omega
        refine ⟨hpos, ?_, hge⟩
        rw [div_lt_iff (by exact_mod_cast hpos)] at hr
        rw [one_div, inv_mul_eq_div, lt_div_iff (by norm_num : (0:ℚ) < 2)] at hr
        have hr2 : ((uniqueCells (dropna s)).length * 2 : ℕ) < (dropna s).length := by
          exact_mod_cast hr
        omega


/-! ### Fixed points of the classifier, for the idempotence claim -/

theorem infer_fixed_datetime {t : Series} (h : t.dtype = Dtype.datetime) :
    infer_column_type t = t := by
  rw [infer_column_type_nonobject (by rw [h]; decide), infer_core_datetime h]

theorem infer_fixed_boolRaw {t : Series} (h : t.dtype = Dtype.boolRaw) :
    infer_column_type t = t := by
  rw [infer_column_type_nonobject (by rw [h]; decide), infer_core_boolRaw h]

theorem infer_fixed_boolN {t : Series} (hdt : t.dtype = Dtype.boolN)
    (hne : t.cells ≠ [])
    (hall : ∀ c ∈ t.cells, c = Cell.na ∨ ∃ b, c = Cell.bool b)
    (hcount : (dropnaL t.cells).length < 10) :
    infer_column_type t = t := by
  rw [infer_column_type_nonobject (by rw [hdt]; decide)]
  have hbool : is_boolean t = false := by
    unfold is_boolean
    rw [if_neg (by rw [hdt]; decide), if_neg (by rw [hdt]; decide)]
  obtain ⟨c0, hc0⟩ := List.exists_mem_of_ne_nil t.cells hne
  have hmn : mapMO (fun c => numCell (astypeStrCell t.dtype c)) t.cells = none := by
    apply mapMO_eq_none hc0
    rcases hall c0 hc0 with rfl | ⟨b, rfl⟩
    · show numCell (astypeStrCell t.dtype Cell.na) = none
      rw [hdt]
      decide
    · show numCell (astypeStrCell t.dtype (Cell.bool b)) = none
      rw [hdt]
      cases b <;> decide
  have hnum := is_numeric_of_mapMO_none hmn
  have hcatf : is_categorical t = false := by
    unfold is_categorical
    rw [if_neg (by rw [hdt]; decide),
      if_neg (by intro hx; rw [hdt] at hx; cases hx.1)]
    have hcount2 : (dropna t).length < 10 := hcount
    exact decide_eq_false (fun hp => absurd hp.2.2 (by omega))
  exact infer_core_text (by rw [hdt]; decide) (by rw [hdt]; decide) hbool hnum
    (by intro hx; rw [hdt] at hx; cases hx.1) hcatf

theorem infer_fixed_int64N {t : Series} (hdt : t.dtype = Dtype.int64N)
    (hall : ∀ c ∈ t.cells, ∃ n, c = Cell.int n)
    (hnot : ¬(∀ c ∈ t.cells, c = Cell.int 0 ∨ c = Cell.int 1))
    (hi64 : t.cells.all cellI64 = true) :
    infer_column_type t = t := by
  rw [infer_column_type_nonobject (by rw [hdt]; decide)]
  push_neg at hnot
  obtain ⟨cw, hcw, hcwne⟩ := hnot
  have hne : t.cells ≠ [] := List.ne_nil_of_mem hcw
  have hbool : is_boolean t = false := by
    unfold is_boolean
    rw [if_pos (Or.inr hdt)]
    cases hb : (dropna t).all (fun c => c == Cell.int 0 || c == Cell.int 1) with
    | false => rfl
    | true =>
      rw [List.all_eq_true] at hb
      have hmem : cw ∈ dropna t := by
        obtain ⟨n, rfl⟩ := hall cw hcw
        exact mem_dropnaL_of_mem hcw (by intro hx; cases hx)
      have h2 := hb cw hmem
      rw [Bool.or_eq_true, beq_iff_eq, beq_iff_eq] at h2
      exact absurd h2 (by tauto)
  have hmap : mapMO (fun c => numCell (astypeStrCell t.dtype c)) t.cells =
      some (t.cells.map (fun c => match c with
        | Cell.int n => Cell.flt n 0
        | c2 => c2)) := by
    apply mapMO_eq_some_map
    intro a ha
    obtain ⟨n, rfl⟩ := hall a ha
    show numCell (astypeStrCell t.dtype (Cell.int n)) = some (Cell.flt n 0)
    rw [hdt]
    exact numCell_intStr n
  have hdna : dropnaL (t.cells.map (fun c => match c with
      | Cell.int n => Cell.flt n 0
      | c2 => c2)) = t.cells.map (fun c => match c with
        | Cell.int n => Cell.flt n 0
        | c2 => c2) := by
    apply dropnaL_eq_self
    intro c hc
    rcases List.mem_map.mp hc with ⟨c0, hc00, rfl⟩
    obtain ⟨n, rfl⟩ := hall c0 hc00
    intro hx
    cases hx
  have hnum : is_numeric_with_na t = (true, ⟨Dtype.int64N, t.cells⟩) := by
    rw [is_numeric_of_mapMO_some hmap]
    have hemp : (dropnaL (t.cells.map (fun c => match c with
        | Cell.int n => Cell.flt n 0
        | c2 => c2))).isEmpty = false := by
      rw [hdna]
      cases hl : t.cells with
      | nil => exact absurd hl hne
      | cons a l => rfl
    have hint : (dropnaL (t.cells.map (fun c => match c with
        | Cell.int n => Cell.flt n 0
        | c2 => c2))).all numIntegral = true := by
      rw [hdna, List.all_eq_true]
      intro c hc
      rcases List.mem_map.mp hc with ⟨c0, hc00, rfl⟩
      obtain ⟨n, rfl⟩ := hall c0 hc00
      show numIntegral (Cell.flt n 0) = true
      simp [numIntegral, fltIntegral, pow10, Int.emod_one]
    have hsafe : (t.cells.map (fun c => match c with
        | Cell.int n => Cell.flt n 0
        | c2 => c2)).all intCastSafe = true := by
      rw [List.all_eq_true]
      intro c hc
      rcases List.mem_map.mp hc with ⟨c0, hc00, rfl⟩
      obtain ⟨n, rfl⟩ := hall c0 hc00
      have hn : inI64 n = true := (List.all_eq_true.mp hi64) _ hc00
      show (fltIntegral n 0 && inI64 (fltToInt n 0)) = true
      rw [show fltToInt n 0 = n from Int.ediv_one n, hn]
      simp [fltIntegral, pow10, Int.emod_one]
    rw [hemp, hint, hsafe]
    show (true, _) = (true, _)
    refine congrArg (Prod.mk true) (congrArg (Series.mk Dtype.int64N) ?_)
    rw [List.map_map]
    have h2 : ∀ c ∈ t.cells, (intCastCell ∘ (fun c => match c with
        | Cell.int n => Cell.flt n 0
        | c2 => c2)) c = c := by
      intro c hc
      obtain ⟨n, rfl⟩ := hall c hc
      show Cell.int (fltToInt n 0) = Cell.int n
      rw [show fltToInt n 0 = n / 1 from rfl, Int.ediv_one]
    rw [List.map_congr_left h2]
    exact List.map_id t.cells
  have hout := infer_core_numeric (by rw [hdt]; decide) (by rw [hdt]; decide) hbool hnum
  rw [hout]
  cases t with
  | mk dt cl =>
    rw [show dt = Dtype.int64N from hdt]

/-- Inversion: a nullable-integer output of the rule cascade either
came from a successful numeric rule - so its integer cells fit the
signed 64-bit range - or is the unchanged fall-through input. -/
theorem infer_core_int64N_inv {u : Series}
    (h : (infer_column_core u).dtype = Dtype.int64N) :
    (infer_column_core u).cells.all cellI64 = true ∨ infer_column_core u = u := by
  by_cases h1 : u.dtype = Dtype.datetime
  · exact Or.inr (infer_core_datetime h1)
  by_cases h2 : u.dtype = Dtype.boolRaw
  · exact Or.inr (infer_core_boolRaw h2)
  by_cases h3 : is_boolean u = true
  · rw [infer_core_boolean h1 h2 h3, convert_to_boolean_dtype] at h
    cases h
  have h3f : is_boolean u = false := by
    cases hb : is_boolean u
    · rfl
    · exact absurd hb h3
  cases hnum : is_numeric_with_na u with
  | mk b ns =>
    cases b
    · have hns : ns = u := is_numeric_false_inv hnum
      rw [hns] at hnum
      by_cases h5 : u.dtype = Dtype.object ∧ (dropna u).all is_date = true
      · rw [infer_core_date h1 h2 h3f hnum h5.1 h5.2] at h
        cases h
      by_cases h6 : is_categorical u = true
      · rw [infer_core_categorical h1 h2 h3f hnum h5 h6] at h
        cases h
      have h6f : is_categorical u = false := by
        cases hb : is_categorical u
        · rfl
        · exact absurd hb h6
      exact Or.inr (infer_core_text h1 h2 h3f hnum h5 h6f)
    · rw [infer_core_numeric h1 h2 h3f hnum] at h ⊢
      exact Or.inl (is_numeric_int64N_cells hnum h)

/-- Inversion at the `infer_column_type` level: a nullable-integer
classification either has all its integer cells within the 64-bit
range or is already a fixed point of the classifier. -/
theorem infer_int64N_inv {s : Series}
    (h : (infer_column_type s).dtype = Dtype.int64N) :
    (infer_column_type s).cells.all cellI64 = true ∨
      infer_column_type (infer_column_type s) = infer_column_type s := by
  by_cases hobj : s.dtype = Dtype.object
  · rw [infer_column_type_object hobj] at h ⊢
    rcases infer_core_int64N_inv h with hL | hfix
    · exact Or.inl hL
    · rw [hfix, stripSeries_dtype, hobj] at h
      cases h
  · rw [infer_column_type_nonobject hobj] at h ⊢
    rcases infer_core_int64N_inv h with hL | hfix
    · exact Or.inl hL
    · right
      rw [hfix, infer_column_type_nonobject hobj]
      exact hfix

/-- Inversion: a category-typed output from an object column means the
boolean and numeric rules failed and the output re-tags the cells. -/
theorem infer_core_category_inv {s : Series} (hdt : s.dtype = Dtype.object)
    (h : (infer_column_core s).dtype = Dtype.category) :
    infer_column_core s = ⟨Dtype.category, s.cells⟩ ∧ is_boolean s = false ∧
    is_numeric_with_na s = (false, s) := by
  by_cases h3 : is_boolean s = true
  · rw [infer_core_boolean (by rw [hdt]; decide) (by rw [hdt]; decide) h3,
      convert_to_boolean_dtype] at h
    cases h
  have h3f : is_boolean s = false := by
    cases hb : is_boolean s
    · rfl
    · exact absurd hb h3
  cases hnum : is_numeric_with_na s with
  | mk b ns =>
    cases b
    · have hns : ns = s := is_numeric_false_inv hnum
      rw [hns] at hnum
      by_cases h5 : s.dtype = Dtype.object ∧ (dropna s).all is_date = true
      · rw [infer_core_date (by rw [hdt]; decide) (by rw [hdt]; decide) h3f hnum
          h5.1 h5.2] at h
        cases h
      by_cases h6 : is_categorical s = true
      · exact ⟨infer_core_categorical (by rw [hdt]; decide) (by rw [hdt]; decide)
          h3f hnum h5 h6, h3f, by rw [hns]⟩
      · have h6f : is_categorical s = false := by
          cases hb : is_categorical s
          · rfl
          · exact absurd hb h6
        rw [infer_core_text (by rw [hdt]; decide) (by rw [hdt]; decide) h3f hnum h5 h6f,
          hdt] at h
        cases h
    · rw [infer_core_numeric (by rw [hdt]; decide) (by rw [hdt]; decide) h3f hnum] at h
      rcases is_numeric_dtype hnum with hdt2 | hdt2 <;> rw [hdt2] at h <;> cases h

theorem astypeStr_category_object {c : Cell} (h : (∃ v, c = Cell.str v) ∨ c = Cell.na) :
    astypeStrCell Dtype.category c = astypeStrCell Dtype.object c := by
  rcases h with ⟨v, rfl⟩ | rfl <;> rfl

theorem series_mk_dtype (d : Dtype) (cl : List Cell) : (Series.mk d cl).dtype = d := rfl

/-- C5 counterexample: a ten-row yes/no column classifies to nullable
boolean, but re-running the classifier on that output re-classifies it
as categorical, so classification is not idempotent. -/
theorem classifier_not_idempotent :
    infer_column_type ⟨Dtype.object,
        [Cell.str "yes", Cell.str "no", Cell.str "yes", Cell.str "no", Cell.str "yes",
         Cell.str "no", Cell.str "yes", Cell.str "no", Cell.str "yes", Cell.str "no"]⟩ =
      ⟨Dtype.boolN,
        [Cell.bool true, Cell.bool false, Cell.bool true, Cell.bool false, Cell.bool true,
         Cell.bool false, Cell.bool true, Cell.bool false, Cell.bool true, Cell.bool false]⟩ ∧
    infer_column_type ⟨Dtype.boolN,
        [Cell.bool true, Cell.bool false, Cell.bool true, Cell.bool false, Cell.bool true,
         Cell.bool false, Cell.bool true, Cell.bool false, Cell.bool true, Cell.bool false]⟩ =
      ⟨Dtype.category,
        [Cell.bool true, Cell.bool false, Cell.bool true, Cell.bool false, Cell.bool true,
         Cell.bool false, Cell.bool true, Cell.bool false, Cell.bool true, Cell.bool false]⟩ ∧
    (⟨Dtype.category,
        [Cell.bool true, Cell.bool false, Cell.bool true, Cell.bool false, Cell.bool true,
         Cell.bool false, Cell.bool true, Cell.bool false, Cell.bool true, Cell.bool false]⟩ :
      Series) ≠
      ⟨Dtype.boolN,
        [Cell.bool true, Cell.bool false, Cell.bool true, Cell.bool false, Cell.bool true,
         Cell.bool false, Cell.bool true, Cell.bool false, Cell.bool true, Cell.bool false]⟩ := by
  decide

/-- C5 amended: re-running the classifier is a no-op when its output is
a datetime, raw-bool, text or (from a textual input) categorical
column, when it is a nullable-boolean column with fewer than 10
non-missing values, and when it is a missing-free nullable-integer
column whose values are not all in {0, 1}; outside these cases
re-classification can change the column (boolean output with at least
10 non-missing values becomes categorical, per the counterexample). -/
theorem classifier_idempotent_cases (s : Series)
    (h : (infer_column_type s).dtype = Dtype.datetime ∨
         (infer_column_type s).dtype = Dtype.boolRaw ∨
         (infer_column_type s).dtype = Dtype.object ∨
         ((infer_column_type s).dtype = Dtype.category ∧ s.dtype = Dtype.object) ∨
         ((infer_column_type s).dtype = Dtype.boolN ∧ (infer_column_type s).cells ≠ [] ∧
           (∀ c ∈ (infer_column_type s).cells, c = Cell.na ∨ ∃ b, c = Cell.bool b) ∧
           (dropnaL (infer_column_type s).cells).length < 10) ∨
         ((infer_column_type s).dtype = Dtype.int64N ∧
           (∀ c ∈ (infer_column_type s).cells, ∃ n, c = Cell.int n) ∧
           ¬(∀ c ∈ (infer_column_type s).cells, c = Cell.int 0 ∨ c = Cell.int 1))) :
    infer_column_type (infer_column_type s) = infer_column_type s := by
  rcases h with h | h | h | ⟨hcat, hobj⟩ | ⟨h1, h2, h3, h4⟩ | ⟨h1, h2, h3⟩
  · exact infer_fixed_datetime h
  · exact infer_fixed_boolRaw h
  · by_cases hobj : s.dtype = Dtype.object
    · rw [infer_column_type_object hobj] at h ⊢
      obtain ⟨_, hfix, _, _, _, _⟩ := infer_core_object_inv h
      rw [hfix, infer_column_type_object (show (stripSeries s).dtype = Dtype.object
        from hobj), stripSeries_idem]
      exact hfix
    · rw [infer_column_type_nonobject hobj] at h ⊢
      obtain ⟨hsd, _, _, _, _, _⟩ := infer_core_object_inv h
      exact absurd hsd hobj
  · rw [infer_column_type_object hobj] at hcat ⊢
    obtain ⟨hfix, hboolf, hnumf⟩ :=
      infer_core_category_inv (show (stripSeries s).dtype = Dtype.object from hobj) hcat
    rw [hfix]
    rw [infer_column_type_nonobject (by rw [series_mk_dtype]; decide)]
    have hcongr : mapMO (fun c => numCell (astypeStrCell Dtype.category c))
        (stripSeries s).cells =
        mapMO (fun c => numCell (astypeStrCell (stripSeries s).dtype c))
          (stripSeries s).cells := by
      apply mapMO_congr
      intro a ha
      have hshape : (∃ v, a = Cell.str v) ∨ a = Cell.na := by
        rcases stripSeries_cell_shape ha with ⟨v, hv, _⟩ | hv
        · exact Or.inl ⟨v, hv⟩
        · exact Or.inr hv
      rw [show (stripSeries s).dtype = Dtype.object from hobj]
      rw [astypeStr_category_object hshape]
    have hfst : (is_numeric_with_na ⟨Dtype.category, (stripSeries s).cells⟩).1 =
        (is_numeric_with_na (stripSeries s)).1 :=
      is_numeric_fst_congr hcongr
    have hnum3 : is_numeric_with_na ⟨Dtype.category, (stripSeries s).cells⟩ =
        (false, ⟨Dtype.category, (stripSeries s).cells⟩) := by
      apply is_numeric_false_of_fst
      rw [hfst, hnumf]
    have hbool3 : is_boolean ⟨Dtype.category, (stripSeries s).cells⟩ = false := by
      unfold is_boolean
      rw [if_neg (by rw [series_mk_dtype]; decide), if_neg (by rw [series_mk_dtype]; decide)]
    have hcat3 : is_categorical ⟨Dtype.category, (stripSeries s).cells⟩ = true := by
      unfold is_categorical
      rw [if_pos (series_mk_dtype _ _)]
    exact infer_core_categorical (by rw [series_mk_dtype]; decide)
      (by rw [series_mk_dtype]; decide) hbool3 hnum3
      (by intro hx; rw [series_mk_dtype] at hx; cases hx.1) hcat3
  · exact infer_fixed_boolN h1 h2 h3 h4
  · rcases infer_int64N_inv h1 with hr | hdone
    · exact infer_fixed_int64N h1 h2 h3 hr
    · exact hdone

/-- Witness for C5 at a stripped two-row text column. -/
theorem classifier_idempotent_cases_witness :
    infer_column_type (infer_column_type ⟨Dtype.object, [Cell.str "hello", Cell.str "wo rld"]⟩) =
      infer_column_type ⟨Dtype.object, [Cell.str "hello", Cell.str "wo rld"]⟩ :=
  classifier_idempotent_cases ⟨Dtype.object, [Cell.str "hello", Cell.str "wo rld"]⟩
    (Or.inr (Or.inr (Or.inl (by decide))))

/-- Witness for C9: a one-character object column qualifies through the
small-distinct one-character branch of the characterization. -/
theorem categorical_rule_characterization_witness :
    is_categorical ⟨Dtype.object, [Cell.str "a"]⟩ = true :=
  (categorical_rule_characterization.1 ⟨Dtype.object, [Cell.str "a"]⟩ rfl).mpr
    (Or.inl (by decide))


end Rhombus
